import Mathlib

/-! google-fit-go-client: a shallow embedding of `main.go`.

The program restores or acquires an OAuth2 credential, fetches five health
metrics for one date from the Google Fit REST API and persists the credential.

Every function of `main.go` is embedded as a Lean function of the same name.  The
libraries it calls are not part of the repository.  What the program rests on is
modelled after their Go sources: the calendar and the machine arithmetic of package
`time`, `strconv.ParseInt` and `FormatInt`, the query parsing of `net/url`, the
loading of `godotenv` into the process environment, and the token source of `oauth2`.
The rest is a parameter: the text format of `godotenv`, `url.Parse` and
`url.QueryUnescape`, the authorization server, the time-zone database, and the
answers of the remote service.
-/

namespace GoogleFit

/-! ## Go runtime: errors, panics, machine integers -/

/-- The two kinds of `*strconv.NumError`: `strconv.ErrSyntax` and `strconv.ErrRange`. -/
inductive NumErrKind where
  | invalid
  | outOfRange
  deriving DecidableEq, Repr

/-- Go `error` values, by the place that creates them. -/
inductive GoError where
  /-- Go `errors.New(msg)`. -/
  | errorsNew (msg : String)
  /-- Go `*strconv.NumError` with its function name, its input and its kind. -/
  | numError (fn : String) (num : String) (kind : NumErrKind)
  /-- An error returned by a library call whose cause lies outside the program
  (file system, network, URL grammar). -/
  | library (origin : String) (msg : String)
  deriving DecidableEq, Repr

/-- Run-time panics the program can raise. -/
inductive Panic where
  /-- Go `runtime error: index out of range [index] with length length`. -/
  | indexOutOfRange (index : Nat) (length : Nat)
  /-- Go `time: missing Location in call to Date`. -/
  | missingLocation
  deriving DecidableEq, Repr

/-- What a call of a Go function `func(...) (*T, error)` does: return a value with a
nil error, return a non-nil error, or panic. -/
inductive Outcome (α : Type) where
  | ok (v : α)
  | err (e : GoError)
  | panic (p : Panic)
  deriving Repr

instance {α : Type} [DecidableEq α] : DecidableEq (Outcome α) := by
  intro a b
  cases a <;> cases b <;> simp <;> infer_instance

/-- Sequencing of Go statements: the first error return or panic ends the function. -/
def Outcome.bind {α β : Type} (x : Outcome α) (f : α → Outcome β) : Outcome β :=
  match x with
  | .ok v => f v
  | .err e => .err e
  | .panic p => .panic p

/-- The slice index expression `xs[i]`. -/
def index {α : Type} (xs : List α) (i : Nat) : Outcome α :=
  match xs.get? i with
  | some x => .ok x
  | none => .panic (.indexOutOfRange i xs.length)

/-- Conversion to `int64`: the value modulo `2^64`, read as a signed number. -/
def wrapInt64 (x : Int) : Int :=
  (x + 9223372036854775808) % 18446744073709551616 - 9223372036854775808

/-- Conversion to `uint64`. -/
def wrapUint64 (x : Int) : Nat :=
  (x % 18446744073709551616).toNat

/-! ## Package `time` -/

/-- A `*time.Location`. -/
inductive Location where
  | UTC
  | Local
  /-- Go `time.FixedZone(name, offset)`. -/
  | fixed (name : String) (offset : Int)
  /-- Go `time.LoadLocation(name)`. -/
  | named (name : String)
  deriving DecidableEq, Repr

/-- What `(*Location).lookup` returns that `Date` uses: the offset in seconds east
of UTC in effect at an instant, and the interval `[start, stop)` in which it is. -/
structure Zone where
  offset : Int
  start : Int
  stop : Int
  deriving DecidableEq, Repr

/-- The time-zone database: `l.lookup(sec)` for every location. -/
abbrev ZoneDB := Location → Int → Zone

/-- A `time.Time` without monotonic clock reading: the instant as seconds since
January 1, 1970 UTC and nanoseconds within the second, and the location.  Go keeps
the seconds since January 1, year 1 in an `int64`; `sec` is that field less
`unixToInternal`. -/
structure Time where
  sec : Int
  nsec : Nat
  loc : Location
  deriving DecidableEq, Repr

/-- Seconds from January 1, year 1 to January 1, 1970. -/
def unixToInternal : Int := 62135596800

/-- Go `unixTime(sec, nsec)`: the seconds are stored as `sec + unixToInternal` in an
`int64`. -/
def unixTime (sec : Int) (nsec : Nat) : Time :=
  { sec := wrapInt64 (sec + unixToInternal) - unixToInternal, nsec := nsec, loc := Location.Local }

/-- Go `t.unixSec()`: `t.sec() + internalToUnix` in `int64` arithmetic. -/
def Time.unixSec (t : Time) : Int := wrapInt64 t.sec

def secondsPerDay : Nat := 86400
def daysPer400Years : Nat := 365 * 400 + 97
def daysPer100Years : Nat := 365 * 100 + 24
def daysPer4Years : Nat := 365 * 4 + 1

/-- The year of the absolute epoch of package `time`. -/
def absoluteZeroYear : Int := -292277022399

/-- Go `unixToInternal + internalToAbsolute`: seconds from the absolute epoch to 1970. -/
def unixToAbsolute : Int := 9223372028715321600

/-- Go `daysBefore[m]`: the days in a non-leap year before month `m+1`. -/
def daysBefore : List Nat := [0, 31, 59, 90, 120, 151, 181, 212, 243, 273, 304, 334, 365]

/-- Go `isLeap(year)`. The remainders are only compared with zero, where Go's
truncated `%` and Lean's agree. -/
def isLeap (year : Int) : Bool :=
  year % 4 == 0 && (year % 100 != 0 || year % 400 == 0)

/-- Go `t.abs()`: seconds since the absolute epoch, in the zone of `t`. -/
def Time.abs (db : ZoneDB) (t : Time) : Nat :=
  let sec := t.unixSec
  let sec := if t.loc = Location.UTC then sec else sec + (db t.loc sec).offset
  wrapUint64 (sec + unixToAbsolute)

/-- The first part of `absDate(abs, true)`: the year and the day within the year,
counted from 0. -/
def absYear (abs : Nat) : Int × Nat :=
  let d := abs / secondsPerDay
  -- 400-year cycles
  let n := d / daysPer400Years
  let y := 400 * n
  let d := d - daysPer400Years * n
  -- 100-year cycles
  let n := d / daysPer100Years
  let n := n - n / 4
  let y := y + 100 * n
  let d := d - daysPer100Years * n
  -- 4-year cycles
  let n := d / daysPer4Years
  let y := y + 4 * n
  let d := d - daysPer4Years * n
  -- years within a 4-year cycle
  let n := d / 365
  let n := n - n / 4
  let y := y + n
  let d := d - 365 * n
  ((y : Int) + absoluteZeroYear, d)

/-- The second part of `absDate(abs, true)`: month and day of month of the day
`yday` of a year, leap or not. -/
def monthDay (leap : Bool) (yday : Nat) : Nat × Nat :=
  let day := yday
  if leap && day == 31 + 29 - 1 then
    (2, 29)
  else
    let day := if leap && day > 31 + 29 - 1 then day - 1 else day
    let month := day / 31
    let stop := daysBefore.getD (month + 1) 0
    if day >= stop then
      (month + 2, day - stop + 1)
    else
      (month + 1, day - daysBefore.getD month 0 + 1)

/-- Go `absDate(abs, true)`: year, month and day of month. -/
def absDate (abs : Nat) : Int × Nat × Nat :=
  let (year, yday) := absYear abs
  (year, monthDay (isLeap year) yday)

/-- Go `absClock(abs)`: hour, minute and second of the day. -/
def absClock (abs : Nat) : Nat × Nat × Nat :=
  let sec := abs % secondsPerDay
  let hour := sec / 3600
  let sec := sec - hour * 3600
  let min := sec / 60
  let sec := sec - min * 60
  (hour, min, sec)

/-- Go `norm(hi, lo, base)`: bring `lo` into `[0, base)`, carrying into `hi`. -/
def norm (hi lo base : Int) : Int × Int :=
  let (hi, lo) :=
    if lo < 0 then
      let n := Int.tdiv (-lo - 1) base + 1
      (hi - n, lo + n * base)
    else (hi, lo)
  if lo >= base then
    let n := Int.tdiv lo base
    (hi + n, lo - n * base)
  else (hi, lo)

/-- Go `daysSinceEpoch(year)`: days from the absolute epoch to the start of `year`. -/
def daysSinceEpoch (year : Int) : Nat :=
  let y := wrapUint64 (year - absoluteZeroYear)
  let n := y / 400
  let y := y - 400 * n
  let d := daysPer400Years * n
  let n := y / 100
  let y := y - 100 * n
  let d := d + daysPer100Years * n
  let n := y / 4
  let y := y - 4 * n
  let d := d + daysPer4Years * n
  let n := y
  d + 365 * n

/-- The last step of `time.Date`: the seconds `unix` were computed as if the zone
were UTC; the offset in effect is looked up and taken off. -/
def adjustToUTC (db : ZoneDB) (loc : Location) (unix : Int) : Int :=
  if loc ≠ Location.UTC then
    let z := db loc unix
    if z.offset ≠ 0 then
      let utc := unix - z.offset
      -- if utc is valid for the zone found, the offset is right; else look up utc
      let offset := if utc < z.start ∨ utc >= z.stop then (db loc utc).offset else z.offset
      unix - offset
    else unix
  else unix

/-- Go `time.Date(year, month, day, hour, min, sec, nsec, loc)`. -/
def Date (db : ZoneDB) (year month day hour min sec nsec : Int) (loc : Location) : Time :=
  -- normalize month, overflowing into year
  let m := month - 1
  let (year, m) := norm year m 12
  let month := m + 1
  -- normalize nsec, sec, min, hour, overflowing into day
  let (sec, nsec) := norm sec nsec 1000000000
  let (min, sec) := norm min sec 60
  let (hour, min) := norm hour min 60
  let (day, hour) := norm day hour 24
  -- days since the absolute epoch
  let d : Int := daysSinceEpoch year
  let d := d + (daysBefore.getD (month - 1).toNat 0 : Nat)
  let d := if isLeap year && month >= 3 then d + 1 else d
  let d := d + (day - 1)
  -- time elapsed today
  let abs := d * secondsPerDay
  let abs := abs + (hour * 3600 + min * 60 + sec)
  let unix := wrapInt64 (abs - unixToAbsolute)
  let unix := adjustToUTC db loc unix
  { unixTime unix nsec.toNat with loc := loc }

/-- Go `t.AddDate(years, months, days)`. -/
def Time.AddDate (db : ZoneDB) (t : Time) (years months days : Int) : Time :=
  let (year, month, day) := absDate (t.abs db)
  let (hour, min, sec) := absClock (t.abs db)
  Date db (year + years) (month + months) (day + days) hour min sec t.nsec t.loc

/-- Go `t.UnixMilli()`: `t.unixSec()*1e3 + int64(t.nsec())/1e6` in `int64` arithmetic. -/
def Time.UnixMilli (t : Time) : Int :=
  wrapInt64 (t.unixSec * 1000 + t.nsec / 1000000)

/-- Go `t.Unix()`. -/
def Time.Unix (t : Time) : Int := t.unixSec

/-- Go `time.Unix(sec, nsec)`; the result is in the local zone. -/
def timeUnix (sec nsec : Int) : Time :=
  let (sec, nsec) :=
    if nsec < 0 ∨ nsec >= 1000000000 then
      let n := Int.tdiv nsec 1000000000
      let sec := sec + n
      let nsec := nsec - n * 1000000000
      if nsec < 0 then (sec - 1, nsec + 1000000000) else (sec, nsec)
    else (sec, nsec)
  unixTime (wrapInt64 sec) nsec.toNat

/-- Go `time.UnixMilli(msec)`. -/
def timeUnixMilli (msec : Int) : Time :=
  timeUnix (Int.tdiv msec 1000) (Int.tmod msec 1000 * 1000000)

/-- Go `t.Before(u)`. -/
def Time.Before (t u : Time) : Bool :=
  t.sec < u.sec || (t.sec == u.sec && t.nsec < u.nsec)

/-- Go `t.IsZero()`: the instant January 1, year 1, 00:00:00 UTC. -/
def Time.IsZero (t : Time) : Bool :=
  t.sec + unixToInternal == 0 && t.nsec == 0

/-- Go `t.Add(d)` for a duration `d` in nanoseconds, exact as long as the seconds
since year 1 stay within `int64`. -/
def Time.Add (t : Time) (d : Int) : Time :=
  let dsec := Int.tdiv d 1000000000
  let nsec : Int := t.nsec + Int.tmod d 1000000000
  let (dsec, nsec) :=
    if nsec >= 1000000000 then (dsec + 1, nsec - 1000000000)
    else if nsec < 0 then (dsec - 1, nsec + 1000000000)
    else (dsec, nsec)
  { t with sec := t.sec + dsec, nsec := nsec.toNat }

def minDuration : Int := -9223372036854775808
def maxDuration : Int := 9223372036854775807

/-- Go `t.Sub(u)`: the duration `t-u` in nanoseconds; when it does not fit a
`time.Duration` the minimum or maximum duration is returned. -/
def Time.Sub (t u : Time) : Int :=
  let d := (t.sec - u.sec) * 1000000000 + ((t.nsec : Int) - u.nsec)
  if minDuration ≤ d ∧ d ≤ maxDuration then d
  else if t.Before u then minDuration
  else maxDuration

/-! ## What a run does to the outside -/

/-- The calls of `main` that the order of a run is about. -/
inductive Op where
  | fetchSteps
  | fetchSleep
  | fetchWeight
  | fetchHeartRate
  | fetchTemperature
  | persist
  deriving DecidableEq, Repr

/-- What a run emits, in order: output, requests to the authorization server, and
the calls of `main`. -/
inductive Event where
  /-- Go `spew.Dump(err)`. -/
  | dump (err : GoError)
  /-- The `Printf` of `main` that shows the authorization URL. -/
  | requireAuthenticate (authCodeUrl : String)
  /-- The token request of `config.Exchange` with an authorization code. -/
  | exchange (code : String)
  /-- The token request of the refresher with a refresh token. -/
  | refresh (refreshToken : String)
  /-- Go `main` calls one of the fetchers or `saveTokenSource`. -/
  | call (op : Op)
  | printStep (stepCount : Int)
  | printSleep (sleep : Int)
  | printWeight (bits : Nat)
  | printHeartRate (bits : Nat)
  | printBodyTemperature (bits : Nat)
  /-- The process ends in a panic. -/
  | crash (p : Panic)
  deriving DecidableEq, Repr

/-! ## Package `strconv` -/

/-- Go `strconv.FormatInt(i, 10)`. -/
def FormatInt (i : Int) : String :=
  if i < 0 then String.mk ('-' :: Nat.toDigits 10 i.natAbs)
  else String.mk (Nat.toDigits 10 i.natAbs)

/-- The loop of `strconv.ParseUint(s, 10, 64)` over the characters of `s`, with `n`
the number read so far.  A character that is no decimal digit is a syntax error; a
number that leaves `uint64` is a range error, reported where it is found. -/
def parseUintLoop : List Char → Nat → Except NumErrKind Nat
  | [], n => .ok n
  | c :: rest, n =>
    if '0' ≤ c ∧ c ≤ '9' then
      let d := c.toNat - '0'.toNat
      if n ≥ 18446744073709551615 / 10 + 1 then .error .outOfRange
      else
        let n := n * 10
        let n1 := (n + d) % 18446744073709551616
        if n1 < n ∨ n1 > 18446744073709551615 then .error .outOfRange
        else parseUintLoop rest n1
    else .error .invalid

/-- Go `strconv.ParseUint(s, 10, 64)`, by kind of error. -/
def ParseUint (s : List Char) : Except NumErrKind Nat :=
  if s = [] then .error .invalid else parseUintLoop s 0

/-- The leading sign that `strconv.ParseInt` picks off: whether the number is
negative, and the rest of the text. -/
def pickSign : List Char → Bool × List Char
  | '+' :: rest => (false, rest)
  | '-' :: rest => (true, rest)
  | all => (false, all)

/-- Go `strconv.ParseInt(s, 10, 64)`.  On an error Go also returns a number (0 or the
nearest bound), which the program does not read. -/
def ParseInt (s : String) : Except GoError Int :=
  if s = "" then .error (.numError "ParseInt" s .invalid)
  else
    let s0 := s
    let (neg, digits) := pickSign s.data
    match ParseUint digits with
    | .error kind => .error (.numError "ParseInt" s0 kind)
    | .ok un =>
      let cutoff : Nat := 9223372036854775808
      if !neg && un ≥ cutoff then .error (.numError "ParseInt" s0 .outOfRange)
      else if neg && un > cutoff then .error (.numError "ParseInt" s0 .outOfRange)
      else .ok (if neg then -(un : Int) else un)

/-! ## Package `os`: environment and files -/

/-- The process environment, `os.Environ()`, as pairs of key and value. -/
abbrev Environ := List (String × String)

/-- Go `os.Getenv(key)`: the value, or the empty string when the variable is unset. -/
def Getenv (env : Environ) (key : String) : String :=
  (env.lookup key).getD ""

/-- The files the program reads and writes, by name, and whether creating a file
fails. -/
structure FileSystem where
  files : List (String × String)
  readOnly : Bool
  deriving DecidableEq, Repr

/-- The reading of a file, as `godotenv.Load` does it. -/
def FileSystem.read (fs : FileSystem) (name : String) : Except GoError String :=
  match fs.files.lookup name with
  | some content => .ok content
  | none => .error (.library "os" ("open " ++ name ++ ": no such file or directory"))

/-- Go `os.Create(name)` followed by writing `content`. -/
def FileSystem.write (fs : FileSystem) (name content : String) : Except GoError FileSystem :=
  if fs.readOnly then .error (.library "os" ("open " ++ name ++ ": permission denied"))
  else .ok { fs with files := (name, content) :: fs.files.filter (fun f => f.1 != name) }

/-! ## Package `godotenv` -/

/-- A `map[string]string` as pairs; the value of a key is the first pair with it. -/
abbrev EnvMap := List (String × String)

/-- The text format of `github.com/joho/godotenv`, taken as a parameter: what
`godotenv.Unmarshal` (and the reading of a file) makes of a text, and the text
`godotenv.Marshal` makes of a map. -/
structure Dotenv where
  Unmarshal : String → Except GoError EnvMap
  Marshal : EnvMap → String

/-- Go `godotenv.Load(filename)`: the variables of the file are set in the process
environment, except those that are already set there. -/
def Dotenv.Load (codec : Dotenv) (fs : FileSystem) (env : Environ) (filename : String) :
    Except GoError Environ :=
  match fs.read filename with
  | .error err => .error err
  | .ok content =>
    match codec.Unmarshal content with
    | .error err => .error err
    | .ok envMap =>
      let currentEnv := env.map Prod.fst
      .ok (env ++ envMap.filter (fun kv => !currentEnv.contains kv.1))

/-- Go `godotenv.Write(envMap, filename)`. -/
def Dotenv.Write (codec : Dotenv) (fs : FileSystem) (envMap : EnvMap) (filename : String) :
    Except GoError FileSystem :=
  let content := codec.Marshal envMap
  fs.write filename (content ++ "\n")

/-! ## Package `oauth2` -/

/-- Go `oauth2.Token`: the fields the program reads and writes. -/
structure Token where
  AccessToken : String
  RefreshToken : String
  TokenType : String
  Expiry : Time
  deriving DecidableEq, Repr

/-- Go `oauth2.Endpoint`. -/
structure Endpoint where
  AuthURL : String
  TokenURL : String
  deriving DecidableEq, Repr

/-- Go `oauth2.Config`. -/
structure Config where
  ClientID : String
  ClientSecret : String
  RedirectURL : String
  Scopes : List String
  Endpoint : GoogleFit.Endpoint
  deriving DecidableEq, Repr

/-- Go `oauth2.AuthCodeOption`: the one option the program passes. -/
inductive AuthCodeOption where
  | AccessTypeOffline
  deriving DecidableEq, Repr

/-- Package `oauth2` and the authorization server behind it, taken as a parameter:
the margin by which a token counts as expired before its expiry, the URL builder,
and the two token requests. -/
structure OAuth2 where
  /-- The `expiryDelta` of the package, in nanoseconds. -/
  expiryDelta : Int
  /-- Go `config.AuthCodeURL(state, opts...)`. -/
  AuthCodeURL : Config → String → List AuthCodeOption → String
  /-- Go `config.Exchange(ctx, code)`. -/
  Exchange : Config → String → Except GoError Token
  /-- The refresh-token request of `tokenRefresher.Token`. -/
  retrieveToken : Config → String → Except GoError Token

/-- The `oauth2.TokenSource` that `config.TokenSource(ctx, t)` builds: a
`reuseTokenSource` holding the token `t` over a `tokenRefresher` holding the
refresh token. -/
structure TokenSource where
  t : Option Token
  conf : Config
  refreshToken : String
  deriving DecidableEq, Repr

/-- Go `config.TokenSource(ctx, t)`. -/
def Config.TokenSource (c : Config) (t : Option Token) : TokenSource :=
  { t := t
    conf := c
    refreshToken := match t with
      | some tok => tok.RefreshToken
      | none => "" }

/-- Go `t.expired()`: a token without expiry never expires; otherwise it counts as
expired from `expiryDelta` before its expiry. -/
def Token.expired (lib : OAuth2) (now : Time) (t : Token) : Bool :=
  if t.Expiry.IsZero then false
  else (t.Expiry.Add (-lib.expiryDelta)).Before now

/-- Go `t.Valid()` for a `*Token` that may be nil. -/
def Token.Valid (lib : OAuth2) (now : Time) (t : Option Token) : Bool :=
  match t with
  | none => false
  | some tok => tok.AccessToken != "" && !tok.expired lib now

/-- Go `(*tokenRefresher).Token()`: the refresh request, with the refresh token kept
for the next one.  The third component lists the requests sent. -/
def TokenSource.refresh (lib : OAuth2) (s : TokenSource) :
    Except GoError Token × TokenSource × List Event :=
  if s.refreshToken = "" then
    (.error (.errorsNew "oauth2: token expired and refresh token is not set"), s, [])
  else
    match lib.retrieveToken s.conf s.refreshToken with
    | .error err => (.error err, s, [.refresh s.refreshToken])
    | .ok tk =>
      (.ok tk, { s with refreshToken := tk.RefreshToken }, [.refresh s.refreshToken])

/-- The part of `(*reuseTokenSource).Token()` after the validity test: a new token
is requested and, when it arrives, held. -/
def TokenSource.renew (lib : OAuth2) (s : TokenSource) :
    Except GoError Token × TokenSource × List Event :=
  match s.refresh lib with
  | (.error err, s, sent) => (.error err, s, sent)
  | (.ok tk, s, sent) => (.ok tk, { s with t := some tk }, sent)

/-- Go `(*reuseTokenSource).Token()` at time `now`: the held token while it is valid,
else a refreshed one.  The third component lists the requests sent. -/
def TokenSource.Token (lib : OAuth2) (now : Time) (s : TokenSource) :
    Except GoError Token × TokenSource × List Event :=
  match s.t with
  | some tok => if Token.Valid lib now (some tok) then (.ok tok, s, []) else s.renew lib
  | none => s.renew lib

/-! ## Package `net/url` -/

/-- A `*url.URL`: the field the program reads. -/
structure URL where
  RawQuery : String
  deriving DecidableEq, Repr

/-- The grammar of package `net/url`, taken as a parameter: `url.Parse` and
`url.QueryUnescape`. -/
structure NetURL where
  Parse : String → Except GoError URL
  QueryUnescape : String → Except GoError String

/-- Go `url.Values`, a `map[string][]string`, as pairs with distinct keys. -/
abbrev Values := List (String × List String)

/-- The statement `m[key] = append(m[key], value)`. -/
def Values.add : Values → String → String → Values
  | [], key, value => [(key, [value])]
  | (k, vs) :: rest, key, value =>
    if k = key then (k, vs ++ [value]) :: rest
    else (k, vs) :: Values.add rest key value

/-- Go `strings.Cut(s, sep)` for a separator of one character. -/
def cut (sep : Char) : List Char → List Char × List Char × Bool
  | [] => ([], [], false)
  | c :: rest =>
    if c = sep then ([], rest, true)
    else
      let (before, after, found) := cut sep rest
      (c :: before, after, found)

/-- The body of the loop of `parseQuery(m, query)` (as of Go 1.17) for one `key` cut
off the query: a part with a semicolon, an empty part, and a part whose key or value
does not unescape leave `m` as it is (`continue`); any other part adds its value to
its key. -/
def queryStep (unescape : String → Except GoError String) (m : Values) (key : List Char) :
    Values :=
  if ';' ∈ key then m
  else if key = [] then m
  else
    let (key, value, _) := cut '=' key
    match unescape (String.mk key) with
    | .error _ => m
    | .ok key =>
      match unescape (String.mk value) with
      | .error _ => m
      | .ok value => m.add key value

/-- The loop `for query != ""` of `parseQuery(m, query)`; `fuel` bounds the number of
rounds, each of which shortens `query`. -/
def parseQueryLoop (unescape : String → Except GoError String) :
    Nat → Values → List Char → Values
  | 0, m, _ => m
  | fuel + 1, m, query =>
    if query = [] then m
    else
      let (key, query, _) := cut '&' query
      parseQueryLoop unescape fuel (queryStep unescape m key) query

/-- Go `u.Query()`: `ParseQuery(u.RawQuery)` with its error dropped. -/
def URL.Query (net : NetURL) (u : URL) : Values :=
  parseQueryLoop net.QueryUnescape (u.RawQuery.data.length + 1) [] u.RawQuery.data

/-! ## The Fitness API client (`google.golang.org/api/fitness/v1`)

Only the fields `main.go` reads or writes are kept.  Slices of pointers are lists
of records: the service's JSON arrays hold objects, never `null`. -/

/-- A `float64`, by its bit pattern; the program only passes such values on. -/
structure Float64 where
  bits : Nat
  deriving DecidableEq, Repr

/-- Go `fitness.Value`. -/
structure Value where
  IntVal : Int
  FpVal : Float64
  deriving DecidableEq, Repr

/-- Go `fitness.DataPoint`. -/
structure DataPoint where
  Value : List GoogleFit.Value
  deriving DecidableEq, Repr

/-- Go `fitness.Dataset`. -/
structure Dataset where
  Point : List DataPoint
  deriving DecidableEq, Repr

/-- Go `fitness.AggregateBucket`. -/
structure AggregateBucket where
  Dataset : List GoogleFit.Dataset
  deriving DecidableEq, Repr

/-- Go `fitness.AggregateResponse`. -/
structure AggregateResponse where
  Bucket : List AggregateBucket
  deriving DecidableEq, Repr

/-- Go `fitness.AggregateBy`. -/
structure AggregateBy where
  DataTypeName : String
  deriving DecidableEq, Repr

/-- Go `fitness.AggregateRequest`. -/
structure AggregateRequest where
  AggregateBy : List GoogleFit.AggregateBy
  StartTimeMillis : Int
  EndTimeMillis : Int
  deriving DecidableEq, Repr

/-- Go `fitness.Session`. -/
structure Session where
  StartTimeMillis : Int
  EndTimeMillis : Int
  deriving DecidableEq, Repr

/-- Go `fitness.ListSessionsResponse`. -/
structure ListSessionsResponse where
  Session : List GoogleFit.Session
  deriving DecidableEq, Repr

/-- A `*fitness.Service`: what the remote service answers to the two calls the
program makes.  The HTTP round trip (with the bearer token the client attaches)
is not modelled further. -/
structure FitnessService where
  /-- Go `Users.Dataset.Aggregate(userId, &request).Do()`. -/
  Aggregate : String → AggregateRequest → Except GoError AggregateResponse
  /-- Go `Users.Sessions.List(userId).StartTime(s).EndTime(e).ActivityType(a).Do()`. -/
  SessionsList : String → String → String → Int → Except GoError ListSessionsResponse

/-- Go `t.Format(layout)`, taken as a parameter. -/
abbrev Formatter := Time → String → String

/-! ## `main.go`: constants -/

def CacheFileName : String := ".token-source.cache"
def KeyAccessToken : String := "KEY_ACCESS_TOKEN"
def KeyRefreshToken : String := "KEY_REFRESH_TOKEN"
def KeyExpiry : String := "KEY_EXPIRY"
def KeyTokenType : String := "KEY_TOKEN_TYPE"
def KeyClientId : String := "CLIENT_ID"
def KeyClientSecret : String := "CLIENT_SECRET"
def KeyRedirectUrl : String := "REDIRECT_URL"
def TimeFormatLayout : String := "2006-01-02T15:04:05Z07:00"

/-! ## `main.go`: the metrics fetchers -/

/-- The request literal of `getStepCountByDate`. -/
def stepCountRequest (db : ZoneDB) (time : Time) : AggregateRequest :=
  { AggregateBy := [{ DataTypeName := "com.google.step_count.delta" }]
    StartTimeMillis := time.UnixMilli
    EndTimeMillis := (time.AddDate db 0 0 1).UnixMilli }

/-- The loop `for _, point := range points { steps += point.Value[0].IntVal }`. -/
def sumSteps : List DataPoint → Int → Outcome Int
  | [], steps => .ok steps
  | point :: rest, steps =>
    (index point.Value 0).bind fun value => sumSteps rest (wrapInt64 (steps + value.IntVal))

/-- Go `getStepCountByDate(fitnessService, time)`. -/
def getStepCountByDate (db : ZoneDB) (fitnessService : FitnessService) (time : Time) :
    Outcome Int :=
  let request := stepCountRequest db time
  match fitnessService.Aggregate "me" request with
  | .error err => .err err
  | .ok result =>
    (index result.Bucket 0).bind fun bucket =>
    (index bucket.Dataset 0).bind fun dataset =>
    sumSteps dataset.Point 0

/-- Go `getSleepByDate(fitnessService, date)`; the result is a `time.Duration` in
nanoseconds. -/
def getSleepByDate (db : ZoneDB) (format : Formatter) (fitnessService : FitnessService)
    (date : Time) : Outcome Int :=
  let startTimeString := format date TimeFormatLayout
  let endTimeString := format (date.AddDate db 0 0 1) TimeFormatLayout
  match fitnessService.SessionsList "me" startTimeString endTimeString 72 with
  | .error err => .err err
  | .ok result =>
    (index result.Session 0).bind fun session =>
    let asleep := timeUnixMilli session.StartTimeMillis
    let awake := timeUnixMilli session.EndTimeMillis
    let diff := awake.Sub asleep
    .ok diff

/-- The request literal shared in shape by the three 5-day measurements. -/
def measurementRequest (db : ZoneDB) (dataTypeName : String) (time : Time) : AggregateRequest :=
  { AggregateBy := [{ DataTypeName := dataTypeName }]
    StartTimeMillis := time.UnixMilli
    EndTimeMillis := (time.AddDate db 0 0 5).UnixMilli }

/-- The expression `result.Bucket[0].Dataset[0].Point[0].Value[0].FpVal`. -/
def firstFpVal (result : AggregateResponse) : Outcome Float64 :=
  (index result.Bucket 0).bind fun bucket =>
  (index bucket.Dataset 0).bind fun dataset =>
  (index dataset.Point 0).bind fun point =>
  (index point.Value 0).bind fun value =>
  .ok value.FpVal

/-- Go `getWeightByDate(fitnessService, time)`. -/
def getWeightByDate (db : ZoneDB) (fitnessService : FitnessService) (time : Time) :
    Outcome Float64 :=
  let request := measurementRequest db "com.google.weight" time
  match fitnessService.Aggregate "me" request with
  | .error err => .err err
  | .ok result => (firstFpVal result).bind fun weight => .ok weight

/-- Go `getHeartRateByDate(fitnessService, time)`. -/
def getHeartRateByDate (db : ZoneDB) (fitnessService : FitnessService) (time : Time) :
    Outcome Float64 :=
  let request := measurementRequest db "com.google.heart_rate.bpm" time
  match fitnessService.Aggregate "me" request with
  | .error err => .err err
  | .ok result => (firstFpVal result).bind fun heartRate => .ok heartRate

/-- Go `getBodyTemperatureByDate(fitnessService, time)`. -/
def getBodyTemperatureByDate (db : ZoneDB) (fitnessService : FitnessService) (time : Time) :
    Outcome Float64 :=
  let request := measurementRequest db "com.google.body.temperature" time
  match fitnessService.Aggregate "me" request with
  | .error err => .err err
  | .ok result => (firstFpVal result).bind fun temp => .ok temp

/-! ## `main.go`: the credential -/

def FitnessActivityReadScope : String := "https://www.googleapis.com/auth/fitness.activity.read"
def FitnessBloodGlucoseReadScope : String :=
  "https://www.googleapis.com/auth/fitness.blood_glucose.read"
def FitnessBloodPressureReadScope : String :=
  "https://www.googleapis.com/auth/fitness.blood_pressure.read"
def FitnessBodyReadScope : String := "https://www.googleapis.com/auth/fitness.body.read"
def FitnessHeartRateReadScope : String :=
  "https://www.googleapis.com/auth/fitness.heart_rate.read"
def FitnessBodyTemperatureReadScope : String :=
  "https://www.googleapis.com/auth/fitness.body_temperature.read"
def FitnessLocationReadScope : String := "https://www.googleapis.com/auth/fitness.location.read"
def FitnessNutritionReadScope : String :=
  "https://www.googleapis.com/auth/fitness.nutrition.read"
def FitnessOxygenSaturationReadScope : String :=
  "https://www.googleapis.com/auth/fitness.oxygen_saturation.read"
def FitnessReproductiveHealthReadScope : String :=
  "https://www.googleapis.com/auth/fitness.reproductive_health.read"
def FitnessSleepReadScope : String := "https://www.googleapis.com/auth/fitness.sleep.read"

/-- Go `google.Endpoint`. -/
def googleEndpoint : Endpoint :=
  { AuthURL := "https://accounts.google.com/o/oauth2/auth"
    TokenURL := "https://oauth2.googleapis.com/token" }

/-- Go `getOauthConfig()`; the second component is the environment after the load. -/
def getOauthConfig (codec : Dotenv) (fs : FileSystem) (env : Environ) :
    Except GoError Config × Environ :=
  match codec.Load fs env ".env" with
  | .error err => (.error err, env)
  | .ok env =>
    let clientId := Getenv env KeyClientId
    let clientSecret := Getenv env KeyClientSecret
    let redirectUrl := Getenv env KeyRedirectUrl
    let config : Config :=
      { ClientID := clientId
        ClientSecret := clientSecret
        RedirectURL := redirectUrl
        Scopes := [
          FitnessActivityReadScope,
          FitnessBloodGlucoseReadScope,
          FitnessBloodPressureReadScope,
          FitnessBodyReadScope,
          FitnessHeartRateReadScope,
          FitnessBodyTemperatureReadScope,
          FitnessLocationReadScope,
          FitnessNutritionReadScope,
          FitnessOxygenSaturationReadScope,
          FitnessReproductiveHealthReadScope,
          FitnessSleepReadScope]
        Endpoint := googleEndpoint }
    (.ok config, env)

/-- Go `refreshTokenSourceIfNeeded(tokenSource)`, with the token source as the call
leaves it and the requests sent. -/
def refreshTokenSourceIfNeeded (lib : OAuth2) (now : Time) (tokenSource : TokenSource) :
    Except GoError Token × TokenSource × List Event :=
  match tokenSource.Token lib now with
  | (.error err, tokenSource, sent) => (.error err, tokenSource, sent)
  | (.ok refreshedToken, tokenSource, sent) => (.ok refreshedToken, tokenSource, sent)

/-- The text `saveTokenSource` formats from the token: four lines `KEY=value`. -/
def tokenText (token : Token) : String :=
  KeyAccessToken ++ "=" ++ token.AccessToken ++ "\n"
    ++ KeyRefreshToken ++ "=" ++ token.RefreshToken ++ "\n"
    ++ KeyTokenType ++ "=" ++ token.TokenType ++ "\n"
    ++ KeyExpiry ++ "=" ++ FormatInt token.Expiry.Unix ++ "\n"

/-- Go `saveTokenSource(tokenSource)`: the returned `error` (`none` for nil), the files
and the token source after the call, and the requests sent. -/
def saveTokenSource (codec : Dotenv) (lib : OAuth2) (now : Time) (fs : FileSystem)
    (tokenSource : TokenSource) : Option GoError × FileSystem × TokenSource × List Event :=
  match refreshTokenSourceIfNeeded lib now tokenSource with
  | (.error err, tokenSource, sent) => (some err, fs, tokenSource, sent)
  | (.ok token, tokenSource, sent) =>
    match codec.Unmarshal (tokenText token) with
    | .error err => (some err, fs, tokenSource, sent)
    | .ok env =>
      match codec.Write fs env CacheFileName with
      | .error err => (some err, fs, tokenSource, sent)
      | .ok fs => (none, fs, tokenSource, sent)

/-- The message of the error `restoreTokenSource` makes for an incomplete credential. -/
def restoreFailedMessage (accessToken refreshToken tokenType : String) (expiryAsUnix : Int) :
    String :=
  "Failed to restore TokenSource.\naccessToken: " ++ accessToken
    ++ "\nrefreshToken: " ++ refreshToken
    ++ "\n, tokenType: " ++ tokenType
    ++ ", expiryAsUnix: " ++ FormatInt expiryAsUnix ++ "\n"

/-- Go `restoreTokenSource(ctx, config)`; the second component is the environment after
the load. -/
def restoreTokenSource (codec : Dotenv) (fs : FileSystem) (env : Environ) (config : Config) :
    Except GoError TokenSource × Environ :=
  match codec.Load fs env CacheFileName with
  | .error err => (.error err, env)
  | .ok env =>
    let accessToken := Getenv env KeyAccessToken
    let refreshToken := Getenv env KeyRefreshToken
    let tokenType := Getenv env KeyTokenType
    match ParseInt (Getenv env KeyExpiry) with
    | .error err => (.error err, env)
    | .ok expiryAsUnix =>
      if accessToken = "" ∨ refreshToken = "" ∨ tokenType = "" ∨ expiryAsUnix = 0 then
        (.error (.errorsNew
          (restoreFailedMessage accessToken refreshToken tokenType expiryAsUnix)), env)
      else
        let token : Token :=
          { AccessToken := accessToken
            RefreshToken := refreshToken
            TokenType := tokenType
            Expiry := timeUnix expiryAsUnix 0 }
        let tokenSource := config.TokenSource (some token)
        (.ok tokenSource, env)

/-- Go `getTokenSourceFromRedirectUrl(ctx, config, authUrl)`, with what the call emits:
the exchange request and the dump of its error. -/
def getTokenSourceFromRedirectUrl (net : NetURL) (lib : OAuth2) (config : Config)
    (authUrl : String) : Outcome TokenSource × List Event :=
  match net.Parse authUrl with
  | .error err => (.err err, [])
  | .ok parsed =>
    match (parsed.Query net).lookup "code" with
    | none =>
      let authCodeUrl := lib.AuthCodeURL config "state" [.AccessTypeOffline]
      (.err (.errorsNew
        ("authToken is empty.\nRequire authenticate.\nAuthCodeURL: " ++ authCodeUrl)), [])
    | some result =>
      match index result 0 with
      | .panic p => (.panic p, [])
      | .err err => (.err err, [])
      | .ok authToken =>
        if authToken = "" then
          let authCodeUrl := lib.AuthCodeURL config "state" [.AccessTypeOffline]
          (.err (.errorsNew ("Require authenticate.\nAuthCodeURL: " ++ authCodeUrl)), [])
        else
          match lib.Exchange config authToken with
          | .error err =>
            let authCodeUrl := lib.AuthCodeURL config "state" [.AccessTypeOffline]
            (.err (.errorsNew ("Require authenticate.\nAuthCodeURL: " ++ authCodeUrl)),
              [.exchange authToken, .dump err])
          | .ok token => (.ok (config.TokenSource (some token)), [.exchange authToken])

/-! ## `main.go`: the run -/

/-- Everything outside the program that a run of `main` meets. -/
structure World where
  db : ZoneDB
  format : Formatter
  codec : Dotenv
  net : NetURL
  oauth : OAuth2
  /-- Go `time.LoadLocation(name)`. -/
  LoadLocation : String → Except GoError Location
  /-- Go `fitness.NewService(ctx, option.WithHTTPClient(client))`. -/
  NewService : Except GoError FitnessService
  /-- The state in which the requests of the client leave the token source they
  share with `main`: the client asks it for a token on each request. -/
  duringFetches : TokenSource → TokenSource
  /-- The time at which `saveTokenSource` asks for the token. -/
  now : Time
  fs : FileSystem
  env : Environ
  /-- The value of the flag `-redirect_url`. -/
  redirectUrl : String

/-- Go `createFitnessService(ctx, client)`. -/
def createFitnessService (w : World) : Except GoError FitnessService :=
  match w.NewService with
  | .error err => .error err
  | .ok fitnessService => .ok fitnessService

/-- The part of `main` from the creation of the client on. -/
def mainFetch (w : World) (fs : FileSystem) (date : Time) (tokenSource : TokenSource) :
    List Event × FileSystem :=
  match createFitnessService w with
  | .error err => ([.dump err], fs)
  | .ok fitnessService =>
  match getStepCountByDate w.db fitnessService date with
  | .err err => ([.call .fetchSteps, .dump err], fs)
  | .panic p => ([.call .fetchSteps, .crash p], fs)
  | .ok stepCount =>
  match getSleepByDate w.db w.format fitnessService date with
  | .err err => ([.call .fetchSteps, .printStep stepCount, .call .fetchSleep, .dump err], fs)
  | .panic p => ([.call .fetchSteps, .printStep stepCount, .call .fetchSleep, .crash p], fs)
  | .ok sleep =>
  match getWeightByDate w.db fitnessService date with
  | .err err =>
    ([.call .fetchSteps, .printStep stepCount, .call .fetchSleep, .printSleep sleep,
      .call .fetchWeight, .dump err], fs)
  | .panic p =>
    ([.call .fetchSteps, .printStep stepCount, .call .fetchSleep, .printSleep sleep,
      .call .fetchWeight, .crash p], fs)
  | .ok weight =>
  match getHeartRateByDate w.db fitnessService date with
  | .err err =>
    ([.call .fetchSteps, .printStep stepCount, .call .fetchSleep, .printSleep sleep,
      .call .fetchWeight, .printWeight weight.bits, .call .fetchHeartRate, .dump err], fs)
  | .panic p =>
    ([.call .fetchSteps, .printStep stepCount, .call .fetchSleep, .printSleep sleep,
      .call .fetchWeight, .printWeight weight.bits, .call .fetchHeartRate, .crash p], fs)
  | .ok heartRate =>
  match getBodyTemperatureByDate w.db fitnessService date with
  | .err err =>
    ([.call .fetchSteps, .printStep stepCount, .call .fetchSleep, .printSleep sleep,
      .call .fetchWeight, .printWeight weight.bits, .call .fetchHeartRate,
      .printHeartRate heartRate.bits, .call .fetchTemperature, .dump err], fs)
  | .panic p =>
    ([.call .fetchSteps, .printStep stepCount, .call .fetchSleep, .printSleep sleep,
      .call .fetchWeight, .printWeight weight.bits, .call .fetchHeartRate,
      .printHeartRate heartRate.bits, .call .fetchTemperature, .crash p], fs)
  | .ok temp =>
  match saveTokenSource w.codec w.oauth w.now fs (w.duringFetches tokenSource) with
  | (some err, fs, _, sent) =>
    ([.call .fetchSteps, .printStep stepCount, .call .fetchSleep, .printSleep sleep,
      .call .fetchWeight, .printWeight weight.bits, .call .fetchHeartRate,
      .printHeartRate heartRate.bits, .call .fetchTemperature,
      .printBodyTemperature temp.bits, .call .persist] ++ sent ++ [.dump err], fs)
  | (none, fs, _, sent) =>
    ([.call .fetchSteps, .printStep stepCount, .call .fetchSleep, .printSleep sleep,
      .call .fetchWeight, .printWeight weight.bits, .call .fetchHeartRate,
      .printHeartRate heartRate.bits, .call .fetchTemperature,
      .printBodyTemperature temp.bits, .call .persist] ++ sent, fs)

/-- Go `main()`: what the run emits and the files it leaves. -/
def main (w : World) : List Event × FileSystem :=
  match w.LoadLocation "Asia/Tokyo" with
  | .error _ => ([.crash .missingLocation], w.fs)
  | .ok location =>
  let date := Date w.db 2022 3 6 0 0 0 0 location
  match getOauthConfig w.codec w.fs w.env with
  | (.error err, _) => ([.dump err], w.fs)
  | (.ok config, env) =>
  match restoreTokenSource w.codec w.fs env config with
  | (.ok tokenSource, _) => mainFetch w w.fs date tokenSource
  | (.error err, _) =>
    let redirectUrl := w.redirectUrl
    if redirectUrl = "" then
      let authCodeUrl := w.oauth.AuthCodeURL config "state" [.AccessTypeOffline]
      ([.dump err, .requireAuthenticate authCodeUrl], w.fs)
    else
      match getTokenSourceFromRedirectUrl w.net w.oauth config redirectUrl with
      | (.err err2, sent) => (.dump err :: sent ++ [.dump err2], w.fs)
      | (.panic p, sent) => (.dump err :: sent ++ [.crash p], w.fs)
      | (.ok ts, sent) =>
        let r := mainFetch w w.fs date ts
        (.dump err :: sent ++ r.1, r.2)

/-! ## Notions the statements use -/

/-- The integer value a data point contributes: `point.Value[0].IntVal`. -/
def firstIntVal (point : DataPoint) : Int :=
  match point.Value with
  | value :: _ => value.IntVal
  | [] => 0

/-- The first value of the first point of the first dataset of the first bucket,
when each of them exists. -/
def firstValue? (result : AggregateResponse) : Option Value :=
  match result.Bucket with
  | [] => none
  | bucket :: _ =>
    match bucket.Dataset with
    | [] => none
    | dataset :: _ =>
      match dataset.Point with
      | [] => none
      | point :: _ => point.Value.head?

/-- The calls of `main` among the events of a run, in order. -/
def calls : List Event → List Op
  | [] => []
  | .call op :: rest => op :: calls rest
  | _ :: rest => calls rest

/-- The order of the steps of the main flow. -/
def allOps : List Op :=
  [.fetchSteps, .fetchSleep, .fetchWeight, .fetchHeartRate, .fetchTemperature, .persist]

/-- Whether a call returned a value. -/
def Outcome.isOk {α : Type} : Outcome α → Bool
  | .ok _ => true
  | _ => false

/-- How many of the six steps run, given which of the five fetches return a value. -/
def stepsRun (steps sleep weight heartRate temp : Bool) : Nat :=
  if !steps then 1
  else if !sleep then 2
  else if !weight then 3
  else if !heartRate then 4
  else if !temp then 5
  else 6

/-- The run of `main` on `w` gets as far as the fetches, with the time zone `location`
and the service `svc`: the time zone is loaded, `getOauthConfig` returns a
configuration, a token source comes from `restoreTokenSource` or else from
`getTokenSourceFromRedirectUrl` on a `redirect_url` flag that is not empty, and
`createFitnessService` returns `svc`. -/
def reachesFetches (w : World) (location : Location) (svc : FitnessService) : Prop :=
  w.LoadLocation "Asia/Tokyo" = .ok location
  ∧ (∃ config env, getOauthConfig w.codec w.fs w.env = (.ok config, env)
      ∧ ((∃ tokenSource,
            (restoreTokenSource w.codec w.fs env config).1 = .ok tokenSource)
        ∨ (w.redirectUrl ≠ ""
          ∧ ∃ tokenSource,
              (getTokenSourceFromRedirectUrl w.net w.oauth config w.redirectUrl).1
                = .ok tokenSource)))
  ∧ createFitnessService w = .ok svc

/-- The number a run of decimal digits denotes, continuing from `acc`. -/
def digitsValue (acc : Nat) (cs : List Char) : Nat :=
  cs.foldl (fun a c => a * 10 + (c.toNat - '0'.toNat)) acc

/-- A decimal digit. -/
def isDecimal (c : Char) : Prop := '0' ≤ c ∧ c ≤ '9'

instance (c : Char) : Decidable (isDecimal c) := by unfold isDecimal; infer_instance

/-- The four keys of the persisted credential. -/
def credentialKeys : List String :=
  [KeyAccessToken, KeyRefreshToken, KeyTokenType, KeyExpiry]

/-- The value a store holds for a key, empty when the key is missing. -/
def storeValue (store : EnvMap) (key : String) : String :=
  (store.lookup key).getD ""

/-- The parts of a text between the occurrences of a separator. -/
def splitOn (sep : Char) : List Char → List (List Char)
  | [] => [[]]
  | c :: rest =>
    if c = sep then [] :: splitOn sep rest
    else
      match splitOn sep rest with
      | [] => [[c]]
      | part :: parts => (c :: part) :: parts

/-- The pair of key and value a part `key=value` of a query string stands for, when
it stands for one: the part is not empty, has no semicolon, and both sides unescape. -/
def queryPair (unescape : String → Except GoError String) (part : List Char) :
    Option (String × String) :=
  if ';' ∈ part ∨ part = [] then none
  else
    match unescape (String.mk (cut '=' part).1), unescape (String.mk (cut '=' part).2.1) with
    | .ok key, .ok value => some (key, value)
    | _, _ => none

/-- The values a query string gives for a key, in the order in which they stand in it. -/
def queryValues (net : NetURL) (key : String) (rawQuery : String) : List String :=
  (((splitOn '&' rawQuery.data).filterMap (queryPair net.QueryUnescape)).filter
    (fun kv => kv.1 = key)).map Prod.snd

/-! ## Fixtures for closed examples -/

/-- The double quote. -/
def quoteChar : Char := Char.ofNat 34

/-- A value without the double quotes around it, if it has them. -/
def unquote (value : List Char) : List Char :=
  match value with
  | c :: rest =>
    if c = quoteChar then
      match rest.reverse with
      | d :: inner => if d = quoteChar then inner.reverse else value
      | [] => value
    else value
  | [] => value

/-- The pairs of the lines `KEY=VALUE`; a line without `=` is an error. -/
def plainUnmarshal : List (List Char) → Except GoError EnvMap
  | [] => .ok []
  | line :: lines =>
    if line = [] then plainUnmarshal lines
    else
      match cut '=' line with
      | (_, _, false) => .error (.library "godotenv" "unexpected character in variable name")
      | (key, value, true) =>
        match plainUnmarshal lines with
        | .error err => .error err
        | .ok pairs => .ok ((String.mk key, String.mk (unquote value)) :: pairs)

/-- The line `godotenv.Marshal` writes for a pair: a whole number bare, any other
value in double quotes. -/
def plainLine (kv : String × String) : String :=
  match ParseInt kv.2 with
  | .ok d => kv.1 ++ "=" ++ FormatInt d
  | .error _ => kv.1 ++ "=\"" ++ kv.2 ++ "\""

/-- The order `sort.Strings` sorts by. -/
def lineLt : List Char → List Char → Bool
  | [], [] => false
  | [], _ :: _ => true
  | _ :: _, [] => false
  | a :: as, b :: bs => a.toNat < b.toNat || (a.toNat == b.toNat && lineLt as bs)

/-- Insertion into a sorted list of lines. -/
def insertLine (line : String) : List String → List String
  | [] => [line]
  | l :: ls => if lineLt line.data l.data then line :: l :: ls else l :: insertLine line ls

/-- A codec for the plain fragment of the dotenv format: lines `KEY=VALUE`, the value
optionally in double quotes, written sorted.  It has no comments, escapes or
variable expansion, and agrees with `godotenv` on texts without them. -/
def plainDotenv : Dotenv :=
  { Unmarshal := fun text => plainUnmarshal (splitOn '\n' text.data)
    Marshal := fun envMap =>
      "\n".intercalate ((envMap.map plainLine).foldr insertLine []) }

/-- An `oauth2` package with the margin of ten seconds and an authorization server
that answers every request with the same token. -/
def plainOAuth (answer : Except GoError Token) : OAuth2 :=
  { expiryDelta := 10000000000
    AuthCodeURL := fun config state _ =>
      config.Endpoint.AuthURL ++ "?access_type=offline&client_id=" ++ config.ClientID
        ++ "&state=" ++ state
    Exchange := fun _ _ => answer
    retrieveToken := fun _ _ => answer }

/-- A `net/url` that takes the text after the first `?` as the query and leaves
query components as they are. -/
def plainURL : NetURL :=
  { Parse := fun text => .ok { RawQuery := String.mk (cut '?' text.data).2.1 }
    QueryUnescape := fun text => .ok text }

/-- A configuration as `getOauthConfig` reads it. -/
def exampleConfig : Config :=
  { ClientID := "client"
    ClientSecret := "secret"
    RedirectURL := "http://localhost"
    Scopes := [FitnessActivityReadScope]
    Endpoint := googleEndpoint }

/-- A credential that expires at 2022-03-06 00:00:00 +09:00. -/
def exampleToken : Token :=
  { AccessToken := "ya29.a0"
    RefreshToken := "1//0e"
    TokenType := "Bearer"
    Expiry := { sec := 1646492400, nsec := 250000000, loc := Location.Local } }

/-- The cache file `saveTokenSource` writes for `exampleToken`. -/
def exampleCache : String :=
  "KEY_ACCESS_TOKEN=\"ya29.a0\"\nKEY_EXPIRY=1646492400\nKEY_REFRESH_TOKEN=\"1//0e\"\nKEY_TOKEN_TYPE=\"Bearer\"\n"

/-- The pairs of the text `saveTokenSource` formats from `exampleToken`. -/
def exampleStore : EnvMap :=
  [("KEY_ACCESS_TOKEN", "ya29.a0"), ("KEY_REFRESH_TOKEN", "1//0e"),
    ("KEY_TOKEN_TYPE", "Bearer"), ("KEY_EXPIRY", "1646492400")]

/-- The pairs of `exampleCache`. -/
def exampleCacheStore : EnvMap :=
  [("KEY_ACCESS_TOKEN", "ya29.a0"), ("KEY_EXPIRY", "1646492400"),
    ("KEY_REFRESH_TOKEN", "1//0e"), ("KEY_TOKEN_TYPE", "Bearer")]

/-- A time one day before `exampleToken` expires. -/
def exampleNow : Time := { sec := 1646406000, nsec := 0, loc := Location.Local }

/-- A credential as the authorization server issues it when it withholds the
refresh token. -/
def tokenWithoutRefresh : Token := { exampleToken with RefreshToken := "" }

/-- A credential whose access token reads as a whole number. -/
def tokenOfDigits : Token := { exampleToken with AccessToken := "007" }

/-- Five seconds before `exampleToken` expires. -/
def fiveSecondsBefore : Time := { sec := 1646492395, nsec := 0, loc := Location.Local }

/-- The token the authorization server issues on a refresh. -/
def refreshedToken : Token :=
  { AccessToken := "ya29.b1"
    RefreshToken := "1//0e"
    TokenType := "Bearer"
    Expiry := { sec := 1646495995, nsec := 0, loc := Location.Local } }

/-- Midnight UTC of a day some 292 million years after 1970, for which the
milliseconds since 1970 still fit an `int64`, but not those of the next day. -/
def lastMidnight : Time := { sec := 9223372036828800, nsec := 0, loc := Location.UTC }

/-! ## Fixtures: the metrics -/

/-- A time-zone database in which every zone is nine hours east of UTC at all
times, as Asia/Tokyo has been since 1951. -/
def tokyoDB : ZoneDB := fun _ _ => ⟨32400, -9223372036854775808, 9223372036854775807⟩

/-- The date of `main`: 2022-03-06 00:00 in Asia/Tokyo. -/
def programDate : Time := Date tokyoDB 2022 3 6 0 0 0 0 (.named "Asia/Tokyo")

/-- A formatter that writes nothing; the services below do not read the request. -/
def rfc3339Stub : Formatter := fun _ _ => ""

/-- A service that lists a session from `start` to `stop` and one more after it. -/
def sleepService (start stop : Int) : FitnessService :=
  { Aggregate := fun _ _ => .ok { Bucket := [] }
    SessionsList := fun _ _ _ _ =>
      .ok { Session := [{ StartTimeMillis := start, EndTimeMillis := stop },
                        { StartTimeMillis := 0, EndTimeMillis := 1 }] } }

/-- A service with one floating-point measurement and no session. -/
def weightService : FitnessService :=
  { Aggregate := fun _ _ =>
      .ok { Bucket := [{ Dataset := [{ Point :=
        [{ Value := [{ IntVal := 0, FpVal := ⟨4634556754870599680⟩ }] }] }] }] }
    SessionsList := fun _ _ _ _ => .ok { Session := [] } }

/-- A service whose answers are successful and empty. -/
def noBucketService : FitnessService :=
  { Aggregate := fun _ _ => .ok { Bucket := [] }
    SessionsList := fun _ _ _ _ => .ok { Session := [] } }

/-- A service whose first dataset has a point for each of `values`, each point with
a second value of 7, beside a second dataset and a second bucket. -/
def stepsService (values : List Int) : FitnessService :=
  { Aggregate := fun _ _ =>
      .ok { Bucket := [
        { Dataset := [
            { Point := values.map fun n =>
                { Value := [{ IntVal := n, FpVal := ⟨0⟩ }, { IntVal := 7, FpVal := ⟨0⟩ }] } },
            { Point := [{ Value := [{ IntVal := 1000, FpVal := ⟨0⟩ }] }] }] },
        { Dataset := [] }] }
    SessionsList := fun _ _ _ _ => .ok { Session := [] } }

/-- A service with one day of data for every metric. -/
def healthyService : FitnessService :=
  { Aggregate := fun _ _ =>
      .ok { Bucket := [{ Dataset := [{ Point :=
        [{ Value := [{ IntVal := 8000, FpVal := ⟨4634556754870599680⟩ }] }] }] }] }
    SessionsList := fun _ _ _ _ =>
      .ok { Session := [{ StartTimeMillis := 1646490600000, EndTimeMillis := 1646518500000 }] } }

/-- A run with a configuration file, a cached credential that is still valid, and a
service that has data. -/
def exampleWorld : World :=
  { db := tokyoDB
    format := rfc3339Stub
    codec := plainDotenv
    net := plainURL
    oauth := plainOAuth (.ok refreshedToken)
    LoadLocation := fun name => .ok (Location.named name)
    NewService := .ok healthyService
    duringFetches := fun tokenSource => tokenSource
    now := exampleNow
    fs := { files := [(".env", "CLIENT_ID=client\nCLIENT_SECRET=secret\nREDIRECT_URL=http://localhost\n"),
                      (CacheFileName, exampleCache)]
            readOnly := false }
    env := []
    redirectUrl := "" }

/-! ## Theorems -/

/-! ## Shared lemmas -/

theorem wrapInt64_of_range (x : Int) (h1 : -9223372036854775808 ≤ x)
    (h2 : x ≤ 9223372036854775807) : wrapInt64 x = x := by
  unfold wrapInt64; omega

theorem wrapInt64_add_wrap (a b : Int) : wrapInt64 (wrapInt64 a + b) = wrapInt64 (a + b) := by
  unfold wrapInt64; omega

theorem wrapInt64_idem (a : Int) : wrapInt64 (wrapInt64 a) = wrapInt64 a := by
  unfold wrapInt64; omega

theorem index_zero_cons {α : Type} (x : α) (xs : List α) : index (x :: xs) 0 = .ok x := rfl

/-! ## Step count -/

theorem sumSteps_eq (points : List DataPoint) (steps : Int)
    (hs : wrapInt64 steps = steps) (hV : ∀ p ∈ points, p.Value ≠ []) :
    sumSteps points steps = .ok (wrapInt64 (steps + (points.map firstIntVal).sum)) := by
  induction points generalizing steps with
  | nil => simp [sumSteps, hs]
  | cons p rest ih =>
    have hp : p.Value ≠ [] := hV p (List.mem_cons_self _ _)
    obtain ⟨v, vs, hv⟩ := List.exists_cons_of_ne_nil hp
    have hrest : ∀ q ∈ rest, q.Value ≠ [] := fun q hq => hV q (List.mem_cons_of_mem _ hq)
    rw [sumSteps, hv, index_zero_cons, Outcome.bind,
      ih (wrapInt64 (steps + v.IntVal)) (wrapInt64_idem _) hrest, wrapInt64_add_wrap]
    simp [firstIntVal, hv, add_assoc]

/-- C4 (amended): when the aggregate call succeeds and the response has a first bucket
with a first dataset whose points all carry a value, `getStepCountByDate` returns the
sum of `Value[0].IntVal` over the points of that dataset, reduced to `int64`; the other
buckets, datasets and values do not enter the result.  The sum is exact when it fits
`int64`, a dataset without points gives 0, and points of 100, 250 and 50 give 400. -/
theorem getStepCountByDate_sum (db : ZoneDB) (svc : FitnessService) (time : Time)
    (result : AggregateResponse) (bucket : AggregateBucket) (buckets : List AggregateBucket)
    (dataset : Dataset) (datasets : List Dataset)
    (hcall : svc.Aggregate "me" (stepCountRequest db time) = .ok result)
    (hB : result.Bucket = bucket :: buckets) (hD : bucket.Dataset = dataset :: datasets)
    (hV : ∀ p ∈ dataset.Point, p.Value ≠ []) :
    getStepCountByDate db svc time
        = .ok (wrapInt64 ((dataset.Point.map firstIntVal).sum))
    ∧ (-9223372036854775808 ≤ (dataset.Point.map firstIntVal).sum
        → (dataset.Point.map firstIntVal).sum ≤ 9223372036854775807
        → getStepCountByDate db svc time = .ok ((dataset.Point.map firstIntVal).sum))
    ∧ (dataset.Point = [] → getStepCountByDate db svc time = .ok 0)
    ∧ (dataset.Point.map firstIntVal = [100, 250, 50]
        → getStepCountByDate db svc time = .ok 400) := by
  have key : getStepCountByDate db svc time
      = .ok (wrapInt64 ((dataset.Point.map firstIntVal).sum)) := by
    unfold getStepCountByDate
    simp only [hcall, hB, hD, index_zero_cons, Outcome.bind]
    rw [sumSteps_eq dataset.Point 0 (by decide) hV, zero_add]
  refine ⟨key, ?_, ?_, ?_⟩
  · intro h1 h2
    rw [key, wrapInt64_of_range _ h1 h2]
  · intro h
    rw [key, h]; rfl
  · intro h
    rw [key, h]; rfl

/-! ## Sleep -/

theorem tmod_bounds (a b : Int) (hb : 0 < b) : -b < Int.tmod a b ∧ Int.tmod a b < b := by
  refine ⟨?_, Int.tmod_lt_of_pos a hb⟩
  by_cases ha : 0 ≤ a
  · have := Int.tmod_nonneg b ha
    omega
  · have h1 : Int.tmod (-a) b < b := Int.tmod_lt_of_pos (-a) hb
    have h2 : Int.tmod (-a) b = -(Int.tmod a b) := by
      rw [Int.tmod_def, Int.tmod_def, Int.neg_tdiv]; ring
    omega

theorem tdiv_small (x b : Int) (h1 : -b < x) (h2 : x < b) : Int.tdiv x b = 0 := by
  by_cases hx : 0 ≤ x
  · exact Int.tdiv_eq_zero_of_lt hx h2
  · have h : Int.tdiv (-x) b = 0 := Int.tdiv_eq_zero_of_lt (by omega) (by omega)
    rw [Int.neg_tdiv] at h
    omega

/-- The instant of `time.UnixMilli(msec)` is `msec` milliseconds after the epoch. -/
theorem timeUnixMilli_instant (msec : Int) (h1 : -9223372036854775808 ≤ msec)
    (h2 : msec ≤ 9223372036854775807) :
    (timeUnixMilli msec).sec * 1000000000 + (timeUnixMilli msec).nsec = msec * 1000000
    ∧ (timeUnixMilli msec).nsec < 1000000000 := by
  have hdm := Int.tdiv_add_tmod msec 1000
  have hb := tmod_bounds msec 1000 (by decide)
  unfold timeUnixMilli timeUnix unixTime unixToInternal
  generalize Int.tdiv msec 1000 = q at *
  generalize Int.tmod msec 1000 = r at *
  have hn : Int.tdiv (r * 1000000) 1000000000 = 0 := tdiv_small _ _ (by omega) (by omega)
  by_cases hr : r < 0
  · have c1 : r * 1000000 < 0 ∨ r * 1000000 ≥ 1000000000 := Or.inl (by omega)
    simp only [c1, if_true, hn]
    have c2 : r * 1000000 - 0 * 1000000000 < 0 := by omega
    simp only [c2, if_true]
    rw [wrapInt64_of_range (q + 0 - 1) (by omega) (by omega),
      wrapInt64_of_range _ (by omega) (by omega)]
    constructor <;> omega
  · have c1 : ¬ (r * 1000000 < 0 ∨ r * 1000000 ≥ 1000000000) := by omega
    simp only [c1, if_false]
    rw [wrapInt64_of_range q (by omega) (by omega),
      wrapInt64_of_range _ (by omega) (by omega)]
    constructor <;> omega

/-- C5 (amended): when the session call succeeds with at least one session,
`getSleepByDate` returns the time from the start to the end of the first session, in
nanoseconds, whatever the later sessions are, provided that time fits a
`time.Duration` (about 292 years either way); 7 h 45 min of milliseconds give
7 h 45 min. -/
theorem getSleepByDate_elapsed (db : ZoneDB) (format : Formatter) (svc : FitnessService)
    (date : Time) (result : ListSessionsResponse) (session : Session) (sessions : List Session)
    (hcall : svc.SessionsList "me" (format date TimeFormatLayout)
      (format (date.AddDate db 0 0 1) TimeFormatLayout) 72 = .ok result)
    (hS : result.Session = session :: sessions)
    (hs1 : -9223372036854775808 ≤ session.StartTimeMillis)
    (hs2 : session.StartTimeMillis ≤ 9223372036854775807)
    (he1 : -9223372036854775808 ≤ session.EndTimeMillis)
    (he2 : session.EndTimeMillis ≤ 9223372036854775807)
    (hfit1 : minDuration ≤ (session.EndTimeMillis - session.StartTimeMillis) * 1000000)
    (hfit2 : (session.EndTimeMillis - session.StartTimeMillis) * 1000000 ≤ maxDuration) :
    getSleepByDate db format svc date
        = .ok ((session.EndTimeMillis - session.StartTimeMillis) * 1000000)
    ∧ (session.EndTimeMillis - session.StartTimeMillis = (7 * 60 + 45) * 60 * 1000
        → getSleepByDate db format svc date = .ok ((7 * 3600 + 45 * 60) * 1000000000)) := by
  have hs := timeUnixMilli_instant session.StartTimeMillis hs1 hs2
  have he := timeUnixMilli_instant session.EndTimeMillis he1 he2
  have key : getSleepByDate db format svc date
      = .ok ((session.EndTimeMillis - session.StartTimeMillis) * 1000000) := by
    unfold getSleepByDate
    simp only [hcall, hS, index_zero_cons, Outcome.bind]
    congr 1
    unfold Time.Sub
    have hd : ((timeUnixMilli session.EndTimeMillis).sec
        - (timeUnixMilli session.StartTimeMillis).sec) * 1000000000
        + (((timeUnixMilli session.EndTimeMillis).nsec : Int)
        - (timeUnixMilli session.StartTimeMillis).nsec)
        = (session.EndTimeMillis - session.StartTimeMillis) * 1000000 := by
      have := hs.1; have := he.1; linarith
    simp only [hd]
    rw [if_pos ⟨hfit1, hfit2⟩]
  refine ⟨key, fun h => ?_⟩
  rw [key, h]; rfl

theorem firstFpVal_eq (result : AggregateResponse) :
    firstFpVal result = match firstValue? result with
      | some value => .ok value.FpVal
      | none => .panic (.indexOutOfRange 0 0) := by
  obtain ⟨buckets⟩ := result
  unfold firstFpVal firstValue?
  cases buckets with
  | nil => rfl
  | cons b bs =>
    obtain ⟨datasets⟩ := b
    cases datasets with
    | nil => rfl
    | cons d ds =>
      obtain ⟨points⟩ := d
      cases points with
      | nil => rfl
      | cons p ps =>
        obtain ⟨values⟩ := p
        cases values with
        | nil => rfl
        | cons v vs => rfl

/-- C4, an instance: three points of 100, 250 and 50, each with a second value, and
a second dataset and bucket beside them. -/
theorem getStepCountByDate_sum_witness :
    getStepCountByDate tokyoDB (stepsService [100, 250, 50]) programDate = .ok 400 :=
  (getStepCountByDate_sum tokyoDB (stepsService [100, 250, 50]) programDate _ _ _ _ _
    rfl rfl rfl (by decide)).2.2.2 (by decide)

/-- C4 as stated fails: a successful response without bucket makes
`getStepCountByDate` panic, and two points of `2^62` steps sum to `-2^63`. -/
theorem getStepCountByDate_counterexample :
    getStepCountByDate tokyoDB noBucketService programDate = .panic (.indexOutOfRange 0 0)
    ∧ getStepCountByDate tokyoDB (stepsService [4611686018427387904, 4611686018427387904])
        programDate = .ok (-9223372036854775808) := by
  constructor <;> rfl

/-- C5, an instance: a session from 23:30 to 07:15, followed by another session. -/
theorem getSleepByDate_elapsed_witness :
    getSleepByDate tokyoDB rfc3339Stub (sleepService 1646490600000 1646518500000) programDate
      = .ok 27900000000000 :=
  (getSleepByDate_elapsed tokyoDB rfc3339Stub (sleepService 1646490600000 1646518500000)
    programDate _ ⟨1646490600000, 1646518500000⟩ _ rfl rfl (by decide) (by decide) (by decide)
    (by decide) (by decide) (by decide)).2 (by decide)

/-- C5 as stated fails: for a session from 1970 to 2286 the result is the largest
`time.Duration`, not the time between the two timestamps. -/
theorem getSleepByDate_counterexample :
    getSleepByDate tokyoDB rfc3339Stub (sleepService 0 10000000000000) programDate
      = .ok 9223372036854775807
    ∧ (9223372036854775807 : Int) ≠ (10000000000000 - 0) * 1000000 := by
  constructor
  · rfl
  · decide

/-- C6: when the remote call succeeds, `getSleepByDate` panics with index 0 out of
range for length 0 if there is no session and returns a duration otherwise;
`getWeightByDate`, `getHeartRateByDate` and `getBodyTemperatureByDate` return the
`FpVal` of the first value of the first point of the first dataset of the first
bucket when all four exist, and panic with index 0 out of range for length 0 when one
of them is missing.  None of them returns an error in these cases. -/
theorem first_element_unguarded (db : ZoneDB) (format : Formatter) (svc : FitnessService)
    (date : Time) (sessions : ListSessionsResponse) (weights rates temps : AggregateResponse)
    (hS : svc.SessionsList "me" (format date TimeFormatLayout)
      (format (date.AddDate db 0 0 1) TimeFormatLayout) 72 = .ok sessions)
    (hW : svc.Aggregate "me" (measurementRequest db "com.google.weight" date) = .ok weights)
    (hH : svc.Aggregate "me" (measurementRequest db "com.google.heart_rate.bpm" date)
      = .ok rates)
    (hT : svc.Aggregate "me" (measurementRequest db "com.google.body.temperature" date)
      = .ok temps) :
    (getSleepByDate db format svc date = match sessions.Session with
      | [] => .panic (.indexOutOfRange 0 0)
      | s :: _ => .ok ((timeUnixMilli s.EndTimeMillis).Sub (timeUnixMilli s.StartTimeMillis)))
    ∧ (getWeightByDate db svc date = match firstValue? weights with
      | some value => .ok value.FpVal
      | none => .panic (.indexOutOfRange 0 0))
    ∧ (getHeartRateByDate db svc date = match firstValue? rates with
      | some value => .ok value.FpVal
      | none => .panic (.indexOutOfRange 0 0))
    ∧ (getBodyTemperatureByDate db svc date = match firstValue? temps with
      | some value => .ok value.FpVal
      | none => .panic (.indexOutOfRange 0 0)) := by
  refine ⟨?_, ?_, ?_, ?_⟩
  · unfold getSleepByDate
    simp only [hS]
    cases sessions.Session <;> rfl
  · unfold getWeightByDate
    simp only [hW, firstFpVal_eq]
    cases firstValue? weights <;> rfl
  · unfold getHeartRateByDate
    simp only [hH, firstFpVal_eq]
    cases firstValue? rates <;> rfl
  · unfold getBodyTemperatureByDate
    simp only [hT, firstFpVal_eq]
    cases firstValue? temps <;> rfl

/-- C6, an instance: a service with a weight but without sessions. -/
theorem first_element_unguarded_witness :
    getSleepByDate tokyoDB rfc3339Stub weightService programDate
        = .panic (.indexOutOfRange 0 0)
    ∧ getWeightByDate tokyoDB weightService programDate = .ok ⟨4634556754870599680⟩
    ∧ getHeartRateByDate tokyoDB weightService programDate = .ok ⟨4634556754870599680⟩
    ∧ getBodyTemperatureByDate tokyoDB weightService programDate
        = .ok ⟨4634556754870599680⟩ :=
  first_element_unguarded tokyoDB rfc3339Stub weightService programDate _ _ _ _
    rfl rfl rfl rfl

/-! ## The calendar of package `time` -/

set_option maxRecDepth 1000000 in
theorem monthDay_inverse (leap : Bool) :
    ∀ yday, yday < 366 → (leap = false → yday < 365) →
      1 ≤ (monthDay leap yday).1 ∧ (monthDay leap yday).1 ≤ 12
      ∧ 1 ≤ (monthDay leap yday).2
      ∧ daysBefore.getD ((monthDay leap yday).1 - 1) 0
          + (if leap = true ∧ (monthDay leap yday).1 ≥ 3 then 1 else 0)
          + ((monthDay leap yday).2 - 1) = yday := by
  cases leap <;> decide

theorem isLeap_iff (year : Int) :
    isLeap year = true ↔ year % 4 = 0 ∧ (year % 100 ≠ 0 ∨ year % 400 = 0) := by
  simp [isLeap]

theorem cycle400 (N n400 d1 : Nat) (e1 : n400 = N / 146097) (e2 : d1 = N - 146097 * n400) :
    d1 < 146097 ∧ N = 146097 * n400 + d1 := by omega

theorem cycle100 (d1 a n100 d2 : Nat) (h : d1 < 146097) (e3 : a = d1 / 36524)
    (e4 : n100 = a - a / 4) (e5 : d2 = d1 - 36524 * n100) :
    n100 ≤ 3 ∧ d1 = 36524 * n100 + d2 ∧ d2 ≤ 36524 ∧ (n100 < 3 → d2 < 36524) := by omega

theorem cycle4 (d2 n4 d3 : Nat) (h : d2 ≤ 36524) (e6 : n4 = d2 / 1461)
    (e7 : d3 = d2 - 1461 * n4) :
    n4 ≤ 24 ∧ d2 = 1461 * n4 + d3 ∧ d3 ≤ 1460 ∧ (d2 < 36524 → n4 = 24 → d3 < 1460) := by
  omega

theorem cycle1 (d3 b n1 d4 : Nat) (h : d3 ≤ 1460) (e8 : b = d3 / 365) (e9 : n1 = b - b / 4)
    (e10 : d4 = d3 - 365 * n1) :
    n1 ≤ 3 ∧ d3 = 365 * n1 + d4 ∧ d4 ≤ 365 ∧ (n1 < 3 → d4 < 365) ∧ (d3 < 1460 → d4 < 365) := by
  omega

theorem years_inverse (y n400 n100 n4 n1 q400 r400 q100 r100 q4 r4 : Nat)
    (b100 : n100 ≤ 3) (b4 : n4 ≤ 24) (b1 : n1 ≤ 3)
    (e11 : y = 400 * n400 + 100 * n100 + 4 * n4 + n1)
    (f1 : q400 = y / 400) (f2 : r400 = y - 400 * q400)
    (f3 : q100 = r400 / 100) (f4 : r100 = r400 - 100 * q100)
    (f5 : q4 = r100 / 4) (f6 : r4 = r100 - 4 * q4) :
    q400 = n400 ∧ q100 = n100 ∧ q4 = n4 ∧ r4 = n1 := by
  have g1 : q400 = n400 := by omega
  have g2 : r400 = 100 * n100 + 4 * n4 + n1 := by omega
  have g3 : q100 = n100 := by omega
  have g4 : r100 = 4 * n4 + n1 := by omega
  exact ⟨g1, g3, by omega, by omega⟩

theorem leap_of_cycles (y n400 n100 n4 n1 : Nat)
    (b100 : n100 ≤ 3) (b4 : n4 ≤ 24) (b1 : n1 ≤ 3)
    (e11 : y = 400 * n400 + 100 * n100 + 4 * n4 + n1)
    (hl : ¬ (((y : Int) + -292277022399) % 4 = 0
          ∧ (((y : Int) + -292277022399) % 100 ≠ 0 ∨ ((y : Int) + -292277022399) % 400 = 0))) :
    n1 < 3 ∨ (n4 = 24 ∧ n100 < 3) := by
  by_cases c1 : n1 < 3
  · exact Or.inl c1
  · right
    by_cases c2 : n4 = 24
    · refine ⟨c2, ?_⟩
      by_cases c3 : n100 < 3
      · exact c3
      · exfalso
        apply hl
        constructor
        · omega
        · right; omega
    · exfalso
      apply hl
      constructor
      · omega
      · left; omega

/-- The arithmetic of the 400-, 100-, 4- and 1-year cycles: counting the days
before the year found for day `N` and adding the day of the year gives `N` back. -/
theorem cycles_inverse (N n400 d1 a n100 d2 n4 d3 b n1 d4 y q400 r400 q100 r100 q4 r4 : Nat)
    (e1 : n400 = N / 146097) (e2 : d1 = N - 146097 * n400)
    (e3 : a = d1 / 36524) (e4 : n100 = a - a / 4) (e5 : d2 = d1 - 36524 * n100)
    (e6 : n4 = d2 / 1461) (e7 : d3 = d2 - 1461 * n4)
    (e8 : b = d3 / 365) (e9 : n1 = b - b / 4) (e10 : d4 = d3 - 365 * n1)
    (e11 : y = 400 * n400 + 100 * n100 + 4 * n4 + n1)
    (f1 : q400 = y / 400) (f2 : r400 = y - 400 * q400)
    (f3 : q100 = r400 / 100) (f4 : r100 = r400 - 100 * q100)
    (f5 : q4 = r100 / 4) (f6 : r4 = r100 - 4 * q4) :
    146097 * q400 + 36524 * q100 + 1461 * q4 + 365 * r4 + d4 = N
    ∧ d4 < 366
    ∧ (¬ (((y : Int) + -292277022399) % 4 = 0
          ∧ (((y : Int) + -292277022399) % 100 ≠ 0 ∨ ((y : Int) + -292277022399) % 400 = 0))
        → d4 < 365) := by
  obtain ⟨a1, a2⟩ := cycle400 N n400 d1 e1 e2
  obtain ⟨b1, b2, b3, b4⟩ := cycle100 d1 a n100 d2 a1 e3 e4 e5
  obtain ⟨c1, c2, c3, c4⟩ := cycle4 d2 n4 d3 b3 e6 e7
  obtain ⟨y1, y2, y3, y4, y5⟩ := cycle1 d3 b n1 d4 c3 e8 e9 e10
  obtain ⟨g1, g2, g3, g4⟩ :=
    years_inverse y n400 n100 n4 n1 q400 r400 q100 r100 q4 r4 b1 c1 y1 e11 f1 f2 f3 f4 f5 f6
  refine ⟨?_, by omega, ?_⟩
  · rw [g1, g2, g3, g4]
    clear e1 e2 e3 e4 e5 e6 e7 e8 e9 e10 e11 f1 f2 f3 f4 f5 f6 b4 c4 y4 y5 g1 g2 g3 g4
    omega
  · intro hl
    rcases leap_of_cycles y n400 n100 n4 n1 b1 c1 y1 e11 hl with h | ⟨h4, h100⟩
    · exact y4 h
    · exact y5 (c4 (b4 h100) h4)

theorem absYear_spec (abs : Nat) :
    ∃ n400 d1 a n100 d2 n4 d3 b n1 d4 y : Nat,
      n400 = abs / 86400 / 146097 ∧ d1 = abs / 86400 - 146097 * n400
      ∧ a = d1 / 36524 ∧ n100 = a - a / 4 ∧ d2 = d1 - 36524 * n100
      ∧ n4 = d2 / 1461 ∧ d3 = d2 - 1461 * n4
      ∧ b = d3 / 365 ∧ n1 = b - b / 4 ∧ d4 = d3 - 365 * n1
      ∧ y = 400 * n400 + 100 * n100 + 4 * n4 + n1
      ∧ absYear abs = ((y : Int) + absoluteZeroYear, d4) :=
  ⟨_, _, _, _, _, _, _, _, _, _, _, rfl, rfl, rfl, rfl, rfl, rfl, rfl, rfl, rfl, rfl, rfl, rfl⟩

theorem daysSinceEpoch_spec (y : Nat) (hy : y < 18446744073709551616) :
    ∃ q400 r400 q100 r100 q4 r4 : Nat,
      q400 = y / 400 ∧ r400 = y - 400 * q400 ∧ q100 = r400 / 100 ∧ r100 = r400 - 100 * q100
      ∧ q4 = r100 / 4 ∧ r4 = r100 - 4 * q4
      ∧ daysSinceEpoch ((y : Int) + absoluteZeroYear)
          = 146097 * q400 + 36524 * q100 + 1461 * q4 + 365 * r4 := by
  have hw : wrapUint64 ((y : Int) + absoluteZeroYear - absoluteZeroYear) = y := by
    unfold wrapUint64
    have : (y : Int) + absoluteZeroYear - absoluteZeroYear = y := by omega
    rw [this]
    omega
  refine ⟨_, _, _, _, _, _, rfl, rfl, rfl, rfl, rfl, rfl, ?_⟩
  unfold daysSinceEpoch
  rw [hw]
  rfl

theorem absYear_inverse (abs : Nat) (h : abs < 18446744073709551616) :
    daysSinceEpoch (absYear abs).1 + (absYear abs).2 = abs / 86400
    ∧ (absYear abs).2 < 366
    ∧ (isLeap (absYear abs).1 = false → (absYear abs).2 < 365) := by
  obtain ⟨n400, d1, a, n100, d2, n4, d3, b, n1, d4, y,
    e1, e2, e3, e4, e5, e6, e7, e8, e9, e10, e11, hy⟩ := absYear_spec abs
  have hlt : y < 18446744073709551616 := by
    obtain ⟨a1, a2⟩ := cycle400 _ n400 d1 e1 e2
    obtain ⟨b1, b2, b3, b4⟩ := cycle100 d1 a n100 d2 a1 e3 e4 e5
    obtain ⟨c1, c2, c3, c4⟩ := cycle4 d2 n4 d3 b3 e6 e7
    obtain ⟨y1, y2, y3, y4, y5⟩ := cycle1 d3 b n1 d4 c3 e8 e9 e10
    clear e2 e3 e4 e5 e6 e7 e8 e9 e10 hy a2 b2 b3 b4 c2 c3 c4 y2 y3 y4 y5
    omega
  obtain ⟨q400, r400, q100, r100, q4, r4, f1, f2, f3, f4, f5, f6, hd⟩ :=
    daysSinceEpoch_spec y hlt
  obtain ⟨k1, k2, k3⟩ := cycles_inverse (abs / 86400) n400 d1 a n100 d2 n4 d3 b n1 d4 y
    q400 r400 q100 r100 q4 r4 e1 e2 e3 e4 e5 e6 e7 e8 e9 e10 e11 f1 f2 f3 f4 f5 f6
  rw [hy]
  refine ⟨by rw [hd]; exact k1, k2, ?_⟩
  intro hleap
  apply k3
  intro hl
  have := (isLeap_iff ((y : Int) + absoluteZeroYear)).mpr hl
  rw [hleap] at this
  cases this

theorem norm_id (hi lo base : Int) (h1 : 0 ≤ lo) (h2 : lo < base) : norm hi lo base = (hi, lo) := by
  unfold norm
  have c1 : ¬ lo < 0 := by omega
  have c2 : ¬ lo ≥ base := by omega
  simp only [c1, c2, if_false]

/-- Go `time.Date` on fields that need no normalization. -/
theorem Date_normal (db : ZoneDB) (year month day hour min sec nsec : Int) (loc : Location)
    (hm : 1 ≤ month ∧ month ≤ 12) (hh : 0 ≤ hour ∧ hour < 24) (hmin : 0 ≤ min ∧ min < 60)
    (hs : 0 ≤ sec ∧ sec < 60) (hn : 0 ≤ nsec ∧ nsec < 1000000000) :
    Date db year month day hour min sec nsec loc =
      { unixTime (adjustToUTC db loc (wrapInt64
          (((daysSinceEpoch year : Int) + (daysBefore.getD (month - 1).toNat 0 : Nat)
              + (if isLeap year = true ∧ month ≥ 3 then 1 else 0) + (day - 1)) * 86400
            + (hour * 3600 + min * 60 + sec) - unixToAbsolute))) nsec.toNat with loc := loc } := by
  unfold Date
  simp only [norm_id year (month - 1) 12 (by omega) (by omega),
    norm_id sec nsec 1000000000 hn.1 hn.2, norm_id min sec 60 hs.1 hs.2,
    norm_id hour min 60 hmin.1 hmin.2, norm_id day hour 24 hh.1 hh.2]
  have e : month - 1 + 1 = month := by omega
  simp only [e, secondsPerDay]
  by_cases hl : isLeap year = true ∧ month ≥ 3
  · simp [hl]
  · rw [if_neg hl]
    have : (isLeap year && decide (month ≥ 3)) = false := by
      simpa [Bool.and_eq_false_iff] using hl
    simp [this]

theorem absClock_spec (abs : Nat) :
    (absClock abs).1 < 24 ∧ (absClock abs).2.1 < 60 ∧ (absClock abs).2.2 < 60
    ∧ (absClock abs).1 * 3600 + (absClock abs).2.1 * 60 + (absClock abs).2.2 = abs % 86400 := by
  simp only [absClock, secondsPerDay]
  omega

theorem absDate_spec (abs : Nat) (h : abs < 18446744073709551616) :
    1 ≤ (absDate abs).2.1 ∧ (absDate abs).2.1 ≤ 12 ∧ 1 ≤ (absDate abs).2.2
    ∧ daysSinceEpoch (absDate abs).1 + daysBefore.getD ((absDate abs).2.1 - 1) 0
        + (if isLeap (absDate abs).1 = true ∧ (absDate abs).2.1 ≥ 3 then 1 else 0)
        + ((absDate abs).2.2 - 1) = abs / 86400 := by
  obtain ⟨h1, h2, h3⟩ := absYear_inverse abs h
  obtain ⟨m1, m2, m3, m4⟩ :=
    monthDay_inverse (isLeap (absYear abs).1) (absYear abs).2 h2 h3
  have e : absDate abs = ((absYear abs).1, monthDay (isLeap (absYear abs).1) (absYear abs).2) := by
    rcases hy : absYear abs with ⟨year, yday⟩
    simp only [absDate, hy]
  rw [e]
  refine ⟨m1, m2, m3, ?_⟩
  show daysSinceEpoch (absYear abs).1
      + daysBefore.getD ((monthDay (isLeap (absYear abs).1) (absYear abs).2).1 - 1) 0
      + (if isLeap (absYear abs).1 = true
          ∧ (monthDay (isLeap (absYear abs).1) (absYear abs).2).1 ≥ 3 then 1 else 0)
      + ((monthDay (isLeap (absYear abs).1) (absYear abs).2).2 - 1) = abs / 86400
  generalize daysSinceEpoch (absYear abs).1 = D at h1 ⊢
  generalize daysBefore.getD ((monthDay (isLeap (absYear abs).1) (absYear abs).2).1 - 1) 0
    = B at m4 ⊢
  generalize (if isLeap (absYear abs).1 = true
      ∧ (monthDay (isLeap (absYear abs).1) (absYear abs).2).1 ≥ 3 then 1 else 0) = L at m4 ⊢
  generalize (monthDay (isLeap (absYear abs).1) (absYear abs).2).2 - 1 = dd at m4 ⊢
  generalize (absYear abs).2 = yd at h1 m4
  clear h2 h3 m1 m2 m3 e
  omega

theorem adjustToUTC_fixed (db : ZoneDB) (loc : Location) (offset unix : Int)
    (hzone : ∀ sec, (db loc sec).offset = offset) :
    adjustToUTC db loc unix = unix - (if loc = Location.UTC then 0 else offset) := by
  unfold adjustToUTC
  by_cases hl : loc = Location.UTC
  · simp [hl]
  · simp only [ne_eq, hl, not_false_eq_true, if_true, if_false, hzone]
    by_cases h0 : offset = 0
    · simp [h0]
    · simp [h0]

theorem AddDate_eq (db : ZoneDB) (t : Time) (years months days : Int) :
    t.AddDate db years months days =
      Date db ((absDate (t.abs db)).1 + years) ((absDate (t.abs db)).2.1 + months)
        ((absDate (t.abs db)).2.2 + days) (absClock (t.abs db)).1 (absClock (t.abs db)).2.1
        (absClock (t.abs db)).2.2 t.nsec t.loc := by
  rcases hd : absDate (t.abs db) with ⟨year, month, day⟩
  rcases hc : absClock (t.abs db) with ⟨hour, min, sec⟩
  simp only [Time.AddDate, hd, hc]

/-- In a zone of fixed offset, `AddDate(0, 0, days)` moves a time by `days` times
86400 seconds, as long as both times are within 292 million years of 1970. -/
theorem AddDate_days (db : ZoneDB) (t : Time) (offset days : Int)
    (hzone : ∀ sec, (db t.loc sec).offset = offset)
    (hnsec : t.nsec < 1000000000)
    (hlo : -9223372036854775 ≤ t.sec) (hhi : t.sec ≤ 9223372036854775)
    (hlo2 : -9223372036854775 ≤ t.sec + 86400 * days)
    (hhi2 : t.sec + 86400 * days ≤ 9223372036854775) :
    t.AddDate db 0 0 days = { sec := t.sec + 86400 * days, nsec := t.nsec, loc := t.loc } := by
  obtain ⟨off, hcase⟩ : ∃ off : Int,
      (t.loc = Location.UTC ∧ off = 0) ∨ (t.loc ≠ Location.UTC ∧ off = offset) := by
    by_cases hl : t.loc = Location.UTC
    · exact ⟨0, Or.inl ⟨hl, rfl⟩⟩
    · exact ⟨offset, Or.inr ⟨hl, rfl⟩⟩
  have hadj : ∀ unix, adjustToUTC db t.loc unix = unix - off := by
    intro unix
    rw [adjustToUTC_fixed db t.loc offset unix hzone]
    rcases hcase with ⟨hl, h⟩ | ⟨hl, h⟩
    · rw [if_pos hl, h]
    · rw [if_neg hl, h]
  have hA : ((t.abs db : Nat) : Int) = (t.sec + off + unixToAbsolute) % 18446744073709551616
      ∧ t.abs db < 18446744073709551616 := by
    unfold Time.abs Time.unixSec
    rw [wrapInt64_of_range t.sec (by omega) (by omega)]
    simp only [hzone]
    have e : (if t.loc = Location.UTC then t.sec else t.sec + offset) = t.sec + off := by
      rcases hcase with ⟨hl, h⟩ | ⟨hl, h⟩
      · rw [if_pos hl, h]; omega
      · rw [if_neg hl, h]
    rw [e]
    unfold wrapUint64 unixToAbsolute
    omega
  obtain ⟨hAeq, hAlt⟩ := hA
  obtain ⟨d1, d2, d3, d4⟩ := absDate_spec (t.abs db) hAlt
  obtain ⟨c1, c2, c3, c4⟩ := absClock_spec (t.abs db)
  rw [AddDate_eq, Date_normal db _ _ _ _ _ _ _ _ (by omega) (by omega) (by omega) (by omega)
    (by omega)]
  simp only [add_zero]
  generalize hY : (absDate (t.abs db)).1 = year at *
  generalize hM : (absDate (t.abs db)).2.1 = month at *
  generalize hD : (absDate (t.abs db)).2.2 = day at *
  generalize hH : (absClock (t.abs db)).1 = hour at *
  generalize hMi : (absClock (t.abs db)).2.1 = min at *
  generalize hS : (absClock (t.abs db)).2.2 = sec at *
  generalize hAA : t.abs db = A at *
  have em : ((month : Int) - 1).toNat = month - 1 := by omega
  rw [em]
  generalize hB : daysBefore.getD (month - 1) 0 = B at *
  generalize hE : daysSinceEpoch year = E at *
  have hsum : (((E : Int) + B + if isLeap year = true ∧ (month : Int) ≥ 3 then 1 else 0)
      + ((day : Int) + days - 1)) = ((A / 86400 : Nat) : Int) + days := by
    rw [← d4]
    by_cases hl : isLeap year = true ∧ month ≥ 3
    · have hl2 : isLeap year = true ∧ (month : Int) ≥ 3 := ⟨hl.1, by omega⟩
      rw [if_pos hl, if_pos hl2]
      push_cast
      omega
    · have hl2 : ¬ (isLeap year = true ∧ (month : Int) ≥ 3) := by
        intro h; exact hl ⟨h.1, by omega⟩
      rw [if_neg hl, if_neg hl2]
      push_cast
      omega
  have harg : (((A / 86400 : Nat) : Int) + days) * 86400
      + ((hour : Int) * 3600 + (min : Int) * 60 + (sec : Int)) - unixToAbsolute
      = (A : Int) + 86400 * days - unixToAbsolute := by
    have c4i : (hour : Int) * 3600 + (min : Int) * 60 + (sec : Int)
        = ((A % 86400 : Nat) : Int) := by
      rw [← c4]; push_cast; rfl
    rw [c4i]
    omega
  rw [hsum, harg, hadj]
  simp only [Int.toNat_ofNat, Time.mk.injEq, and_true, unixTime]
  clear hsum harg hadj hzone d1 d2 d3 d4 c1 c2 c3 c4 hY hM hD hH hMi hS hAA hB hE em hcase
  unfold wrapInt64 unixToInternal
  unfold unixToAbsolute at hAeq ⊢
  omega

theorem UnixMilli_of_range (t : Time) (hn : t.nsec < 1000000000)
    (hlo : -9223372036854775 ≤ t.sec) (hhi : t.sec ≤ 9223372036854774) :
    t.UnixMilli = t.sec * 1000 + t.nsec / 1000000 := by
  unfold Time.UnixMilli Time.unixSec
  rw [wrapInt64_of_range t.sec (by omega) (by omega), wrapInt64_of_range _ (by omega) (by omega)]

/-- C7 (amended): the request of `getStepCountByDate` runs from `time.UnixMilli()` to
`time.AddDate(0, 0, 1).UnixMilli()`, that of the three measurements to
`time.AddDate(0, 0, 5).UnixMilli()`.  For a time in a zone of fixed offset whose
milliseconds since 1970, and those of five days later, fit an `int64`, the start is
the instant of the time in milliseconds, end less start is 86,400,000 and
432,000,000, and the start is before the end. -/
theorem aggregate_window (db : ZoneDB) (time : Time) (offset : Int) (dataTypeName : String)
    (hzone : ∀ sec, (db time.loc sec).offset = offset)
    (hnsec : time.nsec < 1000000000)
    (hlo : -9223372036854775 ≤ time.sec) (hhi : time.sec + 432000 ≤ 9223372036854774) :
    ((stepCountRequest db time).StartTimeMillis = time.UnixMilli
      ∧ (stepCountRequest db time).EndTimeMillis = (time.AddDate db 0 0 1).UnixMilli
      ∧ (measurementRequest db dataTypeName time).StartTimeMillis = time.UnixMilli
      ∧ (measurementRequest db dataTypeName time).EndTimeMillis
          = (time.AddDate db 0 0 5).UnixMilli)
    ∧ time.UnixMilli = time.sec * 1000 + time.nsec / 1000000
    ∧ (stepCountRequest db time).EndTimeMillis - (stepCountRequest db time).StartTimeMillis
        = 86400000
    ∧ (measurementRequest db dataTypeName time).EndTimeMillis
        - (measurementRequest db dataTypeName time).StartTimeMillis = 432000000
    ∧ (stepCountRequest db time).StartTimeMillis < (stepCountRequest db time).EndTimeMillis
    ∧ (measurementRequest db dataTypeName time).StartTimeMillis
        < (measurementRequest db dataTypeName time).EndTimeMillis := by
  have h0 := UnixMilli_of_range time hnsec hlo (by omega)
  have a1 := AddDate_days db time offset 1 hzone hnsec hlo (by omega) (by omega) (by omega)
  have a5 := AddDate_days db time offset 5 hzone hnsec hlo (by omega) (by omega) (by omega)
  have h1 : (time.AddDate db 0 0 1).UnixMilli
      = (time.sec + 86400 * 1) * 1000 + time.nsec / 1000000 := by
    rw [a1]; exact UnixMilli_of_range _ hnsec (by simp only []; omega) (by simp only []; omega)
  have h5 : (time.AddDate db 0 0 5).UnixMilli
      = (time.sec + 86400 * 5) * 1000 + time.nsec / 1000000 := by
    rw [a5]; exact UnixMilli_of_range _ hnsec (by simp only []; omega) (by simp only []; omega)
  refine ⟨⟨rfl, rfl, rfl, rfl⟩, h0, ?_, ?_, ?_, ?_⟩
  all_goals simp only [stepCountRequest, measurementRequest, h0, h1, h5]
  all_goals omega

/-- C7, an instance: 2022-03-06 00:00 in Asia/Tokyo. -/
theorem aggregate_window_witness :
    (stepCountRequest tokyoDB programDate).StartTimeMillis = 1646492400000
    ∧ (stepCountRequest tokyoDB programDate).EndTimeMillis = 1646578800000
    ∧ (measurementRequest tokyoDB "com.google.weight" programDate).EndTimeMillis
        = 1646924400000 := by
  have h := aggregate_window tokyoDB programDate 32400 "com.google.weight" (fun _ => rfl)
    (by decide) (by decide) (by decide)
  have hs : programDate.UnixMilli = 1646492400000 := by rfl
  obtain ⟨⟨e1, _, e3, _⟩, _, h1, h5, _, _⟩ := h
  rw [e1, hs] at h1
  rw [e3, hs] at h5
  refine ⟨by rw [e1, hs], by omega, by omega⟩

/-- C7 as stated fails: for a midnight some 292 million years from now the end of the
window of one day leaves `int64`; it comes out negative, before the start. -/
theorem aggregate_window_counterexample :
    absClock (lastMidnight.abs tokyoDB) = (0, 0, 0)
    ∧ (stepCountRequest tokyoDB lastMidnight).StartTimeMillis = 9223372036828800000
    ∧ (stepCountRequest tokyoDB lastMidnight).EndTimeMillis = -9223372036794351616
    ∧ ¬ ((stepCountRequest tokyoDB lastMidnight).StartTimeMillis
          < (stepCountRequest tokyoDB lastMidnight).EndTimeMillis) := by
  refine ⟨by rfl, by rfl, by rfl, by decide⟩

/-! ## The order of a run -/

theorem calls_append (xs ys : List Event) : calls (xs ++ ys) = calls xs ++ calls ys := by
  induction xs with
  | nil => rfl
  | cons x xs ih => cases x <;> simp [calls, ih]

theorem refresh_sent_calls (lib : OAuth2) (s : TokenSource) : calls (s.refresh lib).2.2 = [] := by
  unfold TokenSource.refresh
  split
  · rfl
  · split <;> rfl

theorem renew_sent_calls (lib : OAuth2) (s : TokenSource) : calls (s.renew lib).2.2 = [] := by
  have h := refresh_sent_calls lib s
  unfold TokenSource.renew
  split
  · next heq => rw [heq] at h; exact h
  · next heq => rw [heq] at h; exact h

theorem token_sent_calls (lib : OAuth2) (now : Time) (s : TokenSource) :
    calls (s.Token lib now).2.2 = [] := by
  unfold TokenSource.Token
  split
  · split
    · rfl
    · exact renew_sent_calls lib s
  · exact renew_sent_calls lib s

theorem saveTokenSource_sent_calls (codec : Dotenv) (lib : OAuth2) (now : Time)
    (fs : FileSystem) (ts : TokenSource) :
    calls (saveTokenSource codec lib now fs ts).2.2.2 = [] := by
  have h := token_sent_calls lib now ts
  unfold saveTokenSource refreshTokenSourceIfNeeded
  split
  · next heq =>
    split at heq
    · next h2 => rw [h2] at h; cases heq; exact h
    · cases heq
  · next heq =>
    split at heq
    · cases heq
    · next h2 =>
      rw [h2] at h; cases heq
      split
      · exact h
      · split <;> exact h

theorem mainFetch_calls (w : World) (fs : FileSystem) (date : Time) (ts : TokenSource)
    (svc : FitnessService) (hsvc : w.NewService = .ok svc) :
    calls (mainFetch w fs date ts).1 = allOps.take (stepsRun
      (getStepCountByDate w.db svc date).isOk (getSleepByDate w.db w.format svc date).isOk
      (getWeightByDate w.db svc date).isOk (getHeartRateByDate w.db svc date).isOk
      (getBodyTemperatureByDate w.db svc date).isOk) := by
  have hsave := saveTokenSource_sent_calls w.codec w.oauth w.now fs (w.duringFetches ts)
  unfold mainFetch createFitnessService
  simp only [hsvc]
  cases h1 : getStepCountByDate w.db svc date <;> simp only [Outcome.isOk] <;> try rfl
  cases h2 : getSleepByDate w.db w.format svc date <;> simp only [Outcome.isOk] <;> try rfl
  cases h3 : getWeightByDate w.db svc date <;> simp only [Outcome.isOk] <;> try rfl
  cases h4 : getHeartRateByDate w.db svc date <;> simp only [Outcome.isOk] <;> try rfl
  cases h5 : getBodyTemperatureByDate w.db svc date <;> simp only [Outcome.isOk] <;> try rfl
  split
  · next heq =>
    rw [heq] at hsave
    simp only [] at hsave
    simp [calls_append, calls, hsave, allOps, stepsRun]
  · next heq =>
    rw [heq] at hsave
    simp only [] at hsave
    simp [calls_append, calls, hsave, allOps, stepsRun]

theorem mainFetch_calls_nosvc (w : World) (fs : FileSystem) (date : Time) (ts : TokenSource)
    (err : GoError) (hsvc : w.NewService = .error err) :
    calls (mainFetch w fs date ts).1 = [] := by
  unfold mainFetch createFitnessService
  simp only [hsvc]
  rfl

theorem mainFetch_files (w : World) (fs : FileSystem) (date : Time) (ts : TokenSource)
    (h : (mainFetch w fs date ts).2 ≠ fs) : Op.persist ∈ calls (mainFetch w fs date ts).1 := by
  have hsave := saveTokenSource_sent_calls w.codec w.oauth w.now fs (w.duringFetches ts)
  revert h
  unfold mainFetch createFitnessService
  cases w.NewService with
  | error e => simp
  | ok svc =>
    simp only []
    cases getStepCountByDate w.db svc date <;> simp only [] <;> try (intro h; exact absurd rfl h)
    cases getSleepByDate w.db w.format svc date <;> simp only []
      <;> try (intro h; exact absurd rfl h)
    cases getWeightByDate w.db svc date <;> simp only [] <;> try (intro h; exact absurd rfl h)
    cases getHeartRateByDate w.db svc date <;> simp only [] <;> try (intro h; exact absurd rfl h)
    cases getBodyTemperatureByDate w.db svc date <;> simp only []
      <;> try (intro h; exact absurd rfl h)
    split
    · next heq =>
      rw [heq] at hsave
      simp only [] at hsave
      intro _
      simp [calls_append, calls, hsave]
    · next heq =>
      rw [heq] at hsave
      simp only [] at hsave
      intro _
      simp [calls_append, calls, hsave]

theorem redirect_sent_calls (net : NetURL) (lib : OAuth2) (config : Config) (authUrl : String) :
    calls (getTokenSourceFromRedirectUrl net lib config authUrl).2 = [] := by
  unfold getTokenSourceFromRedirectUrl
  split <;> try rfl
  split <;> try rfl
  split <;> try rfl
  split <;> try rfl
  split <;> rfl

/-- What `main` calls is what `mainFetch` calls, when it gets that far. -/
theorem main_calls (w : World) :
    (calls (main w).1 = [] ∧ (main w).2 = w.fs)
    ∨ ∃ location ts, w.LoadLocation "Asia/Tokyo" = .ok location
        ∧ calls (main w).1 = calls (mainFetch w w.fs (Date w.db 2022 3 6 0 0 0 0 location) ts).1
        ∧ (main w).2 = (mainFetch w w.fs (Date w.db 2022 3 6 0 0 0 0 location) ts).2 := by
  unfold main
  cases hl : w.LoadLocation "Asia/Tokyo" with
  | error e => left; exact ⟨rfl, rfl⟩
  | ok location =>
    simp only []
    cases hc : getOauthConfig w.codec w.fs w.env with
    | mk cfg env =>
      cases cfg with
      | error e => left; exact ⟨rfl, rfl⟩
      | ok config =>
        simp only []
        cases hr : restoreTokenSource w.codec w.fs env config with
        | mk res env2 =>
          cases res with
          | ok tokenSource => right; exact ⟨location, tokenSource, rfl, rfl, rfl⟩
          | error err =>
            simp only []
            split
            · left; exact ⟨rfl, rfl⟩
            · have hsent := redirect_sent_calls w.net w.oauth config w.redirectUrl
              cases hg : getTokenSourceFromRedirectUrl w.net w.oauth config w.redirectUrl with
              | mk out sent =>
                rw [hg] at hsent
                simp only [] at hsent
                cases out with
                | err e2 =>
                  left
                  refine ⟨?_, rfl⟩
                  simp [calls, calls_append, hsent]
                | panic p =>
                  left
                  refine ⟨?_, rfl⟩
                  simp [calls, calls_append, hsent]
                | ok ts =>
                  right
                  refine ⟨location, ts, rfl, ?_, rfl⟩
                  simp [calls, calls_append, hsent]

/-- Go `createFitnessService` returns what `fitness.NewService` returns. -/
theorem createFitnessService_ok (w : World) (svc : FitnessService) :
    createFitnessService w = .ok svc ↔ w.NewService = .ok svc := by
  unfold createFitnessService
  cases w.NewService with
  | error e => simp
  | ok s => simp

/-- Either `main` stops before the fetches and calls nothing, or it gets as far as the
fetches and calls what `mainFetch` calls. -/
theorem main_calls_split (w : World) :
    (calls (main w).1 = [] ∧ ∀ location svc, ¬ reachesFetches w location svc)
    ∨ ∃ location svc ts, reachesFetches w location svc
        ∧ calls (main w).1
            = calls (mainFetch w w.fs (Date w.db 2022 3 6 0 0 0 0 location) ts).1 := by
  cases hsvc : w.NewService with
  | error e =>
    left
    constructor
    · rcases main_calls w with ⟨h0, _⟩ | ⟨location, ts, _, hcalls, _⟩
      · exact h0
      · rw [hcalls]; exact mainFetch_calls_nosvc w _ _ _ e hsvc
    · intro location svc h
      have := (createFitnessService_ok w svc).1 h.2.2
      rw [hsvc] at this
      cases this
  | ok svc =>
    have hcreate : createFitnessService w = .ok svc := (createFitnessService_ok w svc).2 hsvc
    unfold main
    cases hl : w.LoadLocation "Asia/Tokyo" with
    | error e =>
      left
      refine ⟨rfl, ?_⟩
      intro location svc2 h
      have := h.1
      rw [hl] at this
      cases this
    | ok location =>
      simp only []
      cases hc : getOauthConfig w.codec w.fs w.env with
      | mk cfg env =>
        cases cfg with
        | error e =>
          left
          refine ⟨rfl, ?_⟩
          intro location2 svc2 h
          rcases h.2.1 with ⟨config, env2, hcfg, _⟩
          rw [hc] at hcfg
          cases hcfg
        | ok config =>
          simp only []
          cases hr : restoreTokenSource w.codec w.fs env config with
          | mk res env2 =>
            cases res with
            | ok tokenSource =>
              right
              exact ⟨location, svc, tokenSource,
                ⟨hl, ⟨config, env, hc, Or.inl ⟨tokenSource, by rw [hr]⟩⟩, hcreate⟩, rfl⟩
            | error err =>
              simp only []
              split
              · rename_i hempty
                left
                refine ⟨rfl, ?_⟩
                intro location2 svc2 h
                rcases h.2.1 with ⟨config2, env3, hcfg, hts⟩
                rw [hc] at hcfg
                cases hcfg
                rcases hts with ⟨ts, hts⟩ | ⟨hne, _⟩
                · rw [hr] at hts
                  cases hts
                · exact hne hempty
              · rename_i hne
                have hsent := redirect_sent_calls w.net w.oauth config w.redirectUrl
                cases hg : getTokenSourceFromRedirectUrl w.net w.oauth config w.redirectUrl with
                | mk out sent =>
                  rw [hg] at hsent
                  simp only [] at hsent
                  cases out with
                  | err e2 =>
                    left
                    refine ⟨by simp [calls, calls_append, hsent], ?_⟩
                    intro location2 svc2 h
                    rcases h.2.1 with ⟨config2, env3, hcfg, hts⟩
                    rw [hc] at hcfg
                    cases hcfg
                    rcases hts with ⟨ts, hts⟩ | ⟨_, ts, hts⟩
                    · rw [hr] at hts
                      cases hts
                    · rw [hg] at hts
                      cases hts
                  | panic p =>
                    left
                    refine ⟨by simp [calls, calls_append, hsent], ?_⟩
                    intro location2 svc2 h
                    rcases h.2.1 with ⟨config2, env3, hcfg, hts⟩
                    rw [hc] at hcfg
                    cases hcfg
                    rcases hts with ⟨ts, hts⟩ | ⟨_, ts, hts⟩
                    · rw [hr] at hts
                      cases hts
                    · rw [hg] at hts
                      cases hts
                  | ok ts =>
                    right
                    refine ⟨location, svc, ts,
                      ⟨hl, ⟨config, env, hc, Or.inr ⟨hne, ts, by rw [hg]⟩⟩, hcreate⟩, ?_⟩
                    simp [calls, calls_append, hsent]

theorem stepsRun_le (a b c d e : Bool) : stepsRun a b c d e ≤ 6 := by
  cases a <;> cases b <;> cases c <;> cases d <;> cases e <;> decide

theorem persist_mem_take (a b c d e : Bool)
    (h : Op.persist ∈ allOps.take (stepsRun a b c d e)) :
    a = true ∧ b = true ∧ c = true ∧ d = true ∧ e = true := by
  revert h
  cases a <;> cases b <;> cases c <;> cases d <;> cases e <;> decide

/-- The calls of a run of `main` are an initial segment of the six steps; a fetch that
returns no value is the last call; `saveTokenSource` is called only after five
fetches that returned a value, and the files change only when it is called. -/
theorem main_calls_bounds (w : World) :
    (∃ n, n ≤ 6 ∧ calls (main w).1 = allOps.take n)
    ∧ (calls (main w).1).count Op.persist ≤ 1
    ∧ (Op.persist ∈ calls (main w).1 →
        ∃ location svc, w.LoadLocation "Asia/Tokyo" = .ok location ∧ w.NewService = .ok svc
          ∧ (getStepCountByDate w.db svc (Date w.db 2022 3 6 0 0 0 0 location)).isOk = true
          ∧ (getSleepByDate w.db w.format svc (Date w.db 2022 3 6 0 0 0 0 location)).isOk = true
          ∧ (getWeightByDate w.db svc (Date w.db 2022 3 6 0 0 0 0 location)).isOk = true
          ∧ (getHeartRateByDate w.db svc (Date w.db 2022 3 6 0 0 0 0 location)).isOk = true
          ∧ (getBodyTemperatureByDate w.db svc
              (Date w.db 2022 3 6 0 0 0 0 location)).isOk = true)
    ∧ (∀ location svc, w.LoadLocation "Asia/Tokyo" = .ok location → w.NewService = .ok svc →
        ((getStepCountByDate w.db svc (Date w.db 2022 3 6 0 0 0 0 location)).isOk = false
          → (calls (main w).1).length ≤ 1)
        ∧ ((getSleepByDate w.db w.format svc (Date w.db 2022 3 6 0 0 0 0 location)).isOk = false
          → (calls (main w).1).length ≤ 2)
        ∧ ((getWeightByDate w.db svc (Date w.db 2022 3 6 0 0 0 0 location)).isOk = false
          → (calls (main w).1).length ≤ 3)
        ∧ ((getHeartRateByDate w.db svc (Date w.db 2022 3 6 0 0 0 0 location)).isOk = false
          → (calls (main w).1).length ≤ 4)
        ∧ ((getBodyTemperatureByDate w.db svc
              (Date w.db 2022 3 6 0 0 0 0 location)).isOk = false
          → (calls (main w).1).length ≤ 5))
    ∧ ((main w).2 ≠ w.fs → Op.persist ∈ calls (main w).1) := by
  rcases main_calls w with ⟨h0, hfs⟩ | ⟨location, ts, hloc, hcalls, hfs⟩
  · refine ⟨⟨0, by decide, by rw [h0]; rfl⟩, by rw [h0]; decide, ?_, ?_, ?_⟩
    · rw [h0]; intro h; cases h
    · intro _ _ _ _; rw [h0]; simp
    · intro h; exact absurd hfs h
  · cases hsvc : w.NewService with
    | error err =>
      have h0 : calls (main w).1 = [] := by
        rw [hcalls]; exact mainFetch_calls_nosvc w _ _ _ err hsvc
      refine ⟨⟨0, by decide, by rw [h0]; rfl⟩, by rw [h0]; decide, ?_, ?_, ?_⟩
      · rw [h0]; intro h; cases h
      · intro _ _ _ _; rw [h0]; simp
      · intro h
        rw [hfs] at h
        have := mainFetch_files w _ _ _ h
        rw [← hcalls, h0] at this
        cases this
    | ok svc =>
      have hc := mainFetch_calls w w.fs (Date w.db 2022 3 6 0 0 0 0 location) ts svc hsvc
      rw [← hcalls] at hc
      refine ⟨⟨_, stepsRun_le _ _ _ _ _, hc⟩, ?_, ?_, ?_, ?_⟩
      · rw [hc]
        generalize (getStepCountByDate w.db svc _).isOk = a
        generalize (getSleepByDate w.db w.format svc _).isOk = b
        generalize (getWeightByDate w.db svc _).isOk = c
        generalize (getHeartRateByDate w.db svc _).isOk = d
        generalize (getBodyTemperatureByDate w.db svc _).isOk = e
        cases a <;> cases b <;> cases c <;> cases d <;> cases e <;> decide
      · intro h
        rw [hc] at h
        exact ⟨location, svc, hloc, rfl, persist_mem_take _ _ _ _ _ h⟩
      · intro location2 svc2 hloc2 hsvc2
        rw [hloc] at hloc2
        cases hloc2
        cases hsvc2
        rw [hc]
        generalize (getStepCountByDate w.db svc (Date w.db 2022 3 6 0 0 0 0 location)).isOk = a
        generalize
          (getSleepByDate w.db w.format svc (Date w.db 2022 3 6 0 0 0 0 location)).isOk = b
        generalize (getWeightByDate w.db svc (Date w.db 2022 3 6 0 0 0 0 location)).isOk = c
        generalize (getHeartRateByDate w.db svc (Date w.db 2022 3 6 0 0 0 0 location)).isOk = d
        generalize
          (getBodyTemperatureByDate w.db svc (Date w.db 2022 3 6 0 0 0 0 location)).isOk = e
        cases a <;> cases b <;> cases c <;> cases d <;> cases e <;> decide
      · intro h
        rw [hfs] at h
        have := mainFetch_files w _ _ _ h
        rw [hcalls]
        exact this

/-- A run of `main` that gets as far as the fetches calls exactly the first
`stepsRun` of the six steps. -/
theorem main_calls_exact (w : World) (location : Location) (svc : FitnessService)
    (h : reachesFetches w location svc) :
    calls (main w).1 = allOps.take (stepsRun
      (getStepCountByDate w.db svc (Date w.db 2022 3 6 0 0 0 0 location)).isOk
      (getSleepByDate w.db w.format svc (Date w.db 2022 3 6 0 0 0 0 location)).isOk
      (getWeightByDate w.db svc (Date w.db 2022 3 6 0 0 0 0 location)).isOk
      (getHeartRateByDate w.db svc (Date w.db 2022 3 6 0 0 0 0 location)).isOk
      (getBodyTemperatureByDate w.db svc (Date w.db 2022 3 6 0 0 0 0 location)).isOk) := by
  rcases main_calls_split w with ⟨_, hno⟩ | ⟨location2, svc2, ts, h2, hcalls⟩
  · exact absurd h (hno location svc)
  · have hl : location2 = location := by
      have := h.1
      rw [h2.1] at this
      cases this
      rfl
    have hs : svc2 = svc := by
      have := h.2.2
      rw [h2.2.2] at this
      cases this
      rfl
    subst hl
    subst hs
    rw [hcalls]
    exact mainFetch_calls w w.fs _ ts svc2 ((createFitnessService_ok w svc2).1 h.2.2)

/-- C8: the steps of a run of `main` happen in the fixed order fetch-steps, fetch-sleep,
fetch-weight, fetch-heart-rate, fetch-temperature, persist. A run that gets as far
as the fetches calls exactly the first `stepsRun` of the six: fetch-steps always,
and each later step exactly when every fetch before it returned a value; so when
all five fetches return a value the calls are the six steps, in that order, and a
run that does not get as far as the fetches calls none. Hence the calls are an
initial segment of the six steps, each happens at most once, a fetch that returns
no value (an error, or a panic) is the last call of the run, `saveTokenSource` is
called only when all five fetches returned a value, and the files change only when
it is called. -/
theorem main_order (w : World) :
    (∀ location svc, reachesFetches w location svc →
      calls (main w).1 = allOps.take (stepsRun
        (getStepCountByDate w.db svc (Date w.db 2022 3 6 0 0 0 0 location)).isOk
        (getSleepByDate w.db w.format svc (Date w.db 2022 3 6 0 0 0 0 location)).isOk
        (getWeightByDate w.db svc (Date w.db 2022 3 6 0 0 0 0 location)).isOk
        (getHeartRateByDate w.db svc (Date w.db 2022 3 6 0 0 0 0 location)).isOk
        (getBodyTemperatureByDate w.db svc (Date w.db 2022 3 6 0 0 0 0 location)).isOk))
    ∧ (∀ location svc, reachesFetches w location svc →
        (getStepCountByDate w.db svc (Date w.db 2022 3 6 0 0 0 0 location)).isOk = true →
        (getSleepByDate w.db w.format svc (Date w.db 2022 3 6 0 0 0 0 location)).isOk = true →
        (getWeightByDate w.db svc (Date w.db 2022 3 6 0 0 0 0 location)).isOk = true →
        (getHeartRateByDate w.db svc (Date w.db 2022 3 6 0 0 0 0 location)).isOk = true →
        (getBodyTemperatureByDate w.db svc (Date w.db 2022 3 6 0 0 0 0 location)).isOk = true →
        calls (main w).1 = [Op.fetchSteps, Op.fetchSleep, Op.fetchWeight, Op.fetchHeartRate,
          Op.fetchTemperature, Op.persist])
    ∧ ((∀ location svc, ¬ reachesFetches w location svc) → calls (main w).1 = [])
    ∧ (∃ n, n ≤ 6 ∧ calls (main w).1 = allOps.take n)
    ∧ (calls (main w).1).count Op.persist ≤ 1
    ∧ (Op.persist ∈ calls (main w).1 →
        ∃ location svc, w.LoadLocation "Asia/Tokyo" = .ok location ∧ w.NewService = .ok svc
          ∧ (getStepCountByDate w.db svc (Date w.db 2022 3 6 0 0 0 0 location)).isOk = true
          ∧ (getSleepByDate w.db w.format svc (Date w.db 2022 3 6 0 0 0 0 location)).isOk = true
          ∧ (getWeightByDate w.db svc (Date w.db 2022 3 6 0 0 0 0 location)).isOk = true
          ∧ (getHeartRateByDate w.db svc (Date w.db 2022 3 6 0 0 0 0 location)).isOk = true
          ∧ (getBodyTemperatureByDate w.db svc
              (Date w.db 2022 3 6 0 0 0 0 location)).isOk = true)
    ∧ (∀ location svc, w.LoadLocation "Asia/Tokyo" = .ok location → w.NewService = .ok svc →
        ((getStepCountByDate w.db svc (Date w.db 2022 3 6 0 0 0 0 location)).isOk = false
          → (calls (main w).1).length ≤ 1)
        ∧ ((getSleepByDate w.db w.format svc (Date w.db 2022 3 6 0 0 0 0 location)).isOk = false
          → (calls (main w).1).length ≤ 2)
        ∧ ((getWeightByDate w.db svc (Date w.db 2022 3 6 0 0 0 0 location)).isOk = false
          → (calls (main w).1).length ≤ 3)
        ∧ ((getHeartRateByDate w.db svc (Date w.db 2022 3 6 0 0 0 0 location)).isOk = false
          → (calls (main w).1).length ≤ 4)
        ∧ ((getBodyTemperatureByDate w.db svc
              (Date w.db 2022 3 6 0 0 0 0 location)).isOk = false
          → (calls (main w).1).length ≤ 5))
    ∧ ((main w).2 ≠ w.fs → Op.persist ∈ calls (main w).1) := by
  refine ⟨main_calls_exact w, ?_, ?_, main_calls_bounds w⟩
  · intro location svc h h1 h2 h3 h4 h5
    rw [main_calls_exact w location svc h, h1, h2, h3, h4, h5]
    rfl
  · intro hno
    rcases main_calls_split w with ⟨h0, _⟩ | ⟨location, svc, _, h, _⟩
    · exact h0
    · exact absurd h (hno location svc)

/-! ## `strconv`: parsing what was formatted -/

theorem digitChar_decimal (k : Nat) (hk : k < 10) :
    isDecimal (Nat.digitChar k) ∧ (Nat.digitChar k).toNat - '0'.toNat = k := by
  interval_cases k <;> decide

theorem digitsValue_ge (cs : List Char) (acc : Nat) : acc ≤ digitsValue acc cs := by
  induction cs generalizing acc with
  | nil => exact Nat.le_refl _
  | cons c cs ih =>
    have := ih (acc * 10 + (c.toNat - '0'.toNat))
    simp only [digitsValue, List.foldl_cons] at this ⊢
    omega

theorem toDigitsCore_value (fuel n : Nat) (ds : List Char) (h : n < fuel) :
    digitsValue 0 (Nat.toDigitsCore 10 fuel n ds) = digitsValue n ds := by
  induction fuel generalizing n ds with
  | zero => omega
  | succ fuel ih =>
    have hd := (digitChar_decimal (n % 10) (Nat.mod_lt _ (by decide))).2
    unfold Nat.toDigitsCore
    simp only []
    split
    · next h0 =>
      simp only [digitsValue, List.foldl_cons, hd]
      congr 1
      omega
    · next h0 =>
      rw [ih (n / 10) _ (by omega)]
      simp only [digitsValue, List.foldl_cons, hd]
      congr 1
      omega

theorem toDigitsCore_decimal (fuel n : Nat) (ds : List Char) (hds : ∀ c ∈ ds, isDecimal c) :
    ∀ c ∈ Nat.toDigitsCore 10 fuel n ds, isDecimal c := by
  induction fuel generalizing n ds with
  | zero => exact hds
  | succ fuel ih =>
    have hd := (digitChar_decimal (n % 10) (Nat.mod_lt _ (by decide))).1
    have hds2 : ∀ c ∈ Nat.digitChar (n % 10) :: ds, isDecimal c := by
      intro c hc
      rcases List.mem_cons.mp hc with h | h
      · rw [h]; exact hd
      · exact hds c h
    unfold Nat.toDigitsCore
    simp only []
    split
    · exact hds2
    · exact ih _ _ hds2

theorem toDigitsCore_ne_nil (fuel n : Nat) (ds : List Char) (h : 0 < fuel) :
    Nat.toDigitsCore 10 fuel n ds ≠ [] := by
  induction fuel generalizing n ds with
  | zero => omega
  | succ fuel ih =>
    unfold Nat.toDigitsCore
    simp only []
    split
    · simp
    · cases fuel with
      | zero => simp [Nat.toDigitsCore]
      | succ f => exact ih _ _ (by omega)

theorem toDigits_value (n : Nat) : digitsValue 0 (Nat.toDigits 10 n) = n := by
  unfold Nat.toDigits
  rw [toDigitsCore_value _ _ _ (by omega)]
  rfl

theorem toDigits_decimal (n : Nat) : ∀ c ∈ Nat.toDigits 10 n, isDecimal c :=
  toDigitsCore_decimal _ _ _ (by simp)

theorem toDigits_ne_nil (n : Nat) : Nat.toDigits 10 n ≠ [] :=
  toDigitsCore_ne_nil _ _ _ (by omega)

theorem parseUintLoop_digits (cs : List Char) (acc : Nat) (hcs : ∀ c ∈ cs, isDecimal c)
    (hfit : digitsValue acc cs < 18446744073709551616) :
    parseUintLoop cs acc = .ok (digitsValue acc cs) := by
  induction cs generalizing acc with
  | nil => rfl
  | cons c cs ih =>
    have hc : '0' ≤ c ∧ c ≤ '9' := hcs c (List.mem_cons_self _ _)
    have hrest : ∀ d ∈ cs, isDecimal d := fun d hd => hcs d (List.mem_cons_of_mem _ hd)
    have hval : digitsValue acc (c :: cs) = digitsValue (acc * 10 + (c.toNat - '0'.toNat)) cs := rfl
    have hge := digitsValue_ge cs (acc * 10 + (c.toNat - '0'.toNat))
    rw [hval] at hfit ⊢
    unfold parseUintLoop
    rw [if_pos hc]
    have h1 : ¬ acc ≥ 18446744073709551615 / 10 + 1 := by omega
    rw [if_neg h1]
    simp only []
    have h2 : (acc * 10 + (c.toNat - '0'.toNat)) % 18446744073709551616
        = acc * 10 + (c.toNat - '0'.toNat) := Nat.mod_eq_of_lt (by omega)
    rw [h2]
    have h3 : ¬ (acc * 10 + (c.toNat - '0'.toNat) < acc * 10
        ∨ acc * 10 + (c.toNat - '0'.toNat) > 18446744073709551615) := by omega
    rw [if_neg h3]
    exact ih _ hrest hfit

theorem ParseUint_toDigits (n : Nat) (h : n < 18446744073709551616) :
    ParseUint (Nat.toDigits 10 n) = .ok n := by
  unfold ParseUint
  rw [if_neg (toDigits_ne_nil n), parseUintLoop_digits _ _ (toDigits_decimal n)
    (by rw [toDigits_value]; exact h), toDigits_value]

theorem toDigits_head (n : Nat) :
    ∃ c cs, Nat.toDigits 10 n = c :: cs ∧ c ≠ '+' ∧ c ≠ '-' := by
  obtain ⟨c, cs, h⟩ := List.exists_cons_of_ne_nil (toDigits_ne_nil n)
  have hc : isDecimal c := toDigits_decimal n c (by rw [h]; exact List.mem_cons_self _ _)
  refine ⟨c, cs, h, ?_, ?_⟩
  · rintro rfl; exact absurd hc (by decide)
  · rintro rfl; exact absurd hc (by decide)

/-- Go `ParseInt(FormatInt(x, 10), 10, 64)` gives `x` back for every `int64`. -/
theorem ParseInt_FormatInt (x : Int) (h1 : -9223372036854775808 ≤ x)
    (h2 : x ≤ 9223372036854775807) : ParseInt (FormatInt x) = .ok x := by
  obtain ⟨c, cs, hd, hp, hm⟩ := toDigits_head x.natAbs
  have hparse := ParseUint_toDigits x.natAbs (by omega)
  by_cases hx : x < 0
  · have hf : FormatInt x = String.mk ('-' :: Nat.toDigits 10 x.natAbs) := by
      unfold FormatInt; rw [if_pos hx]
    rw [hf]
    unfold ParseInt
    have hne : String.mk ('-' :: Nat.toDigits 10 x.natAbs) ≠ "" := by
      intro h; have := congrArg String.data h; simp at this
    rw [if_neg hne]
    simp only [pickSign, hparse]
    have c1 : ¬ (x.natAbs > 9223372036854775808) := by omega
    simp [pickSign, c1]
    have := abs_of_neg hx
    omega
  · have hf : FormatInt x = String.mk (Nat.toDigits 10 x.natAbs) := by
      unfold FormatInt; rw [if_neg hx]
    rw [hf]
    unfold ParseInt
    have hne : String.mk (Nat.toDigits 10 x.natAbs) ≠ "" := by
      intro h; have := congrArg String.data h; rw [hd] at this; simp at this
    rw [if_neg hne]
    have hs : pickSign (Nat.toDigits 10 x.natAbs) = (false, Nat.toDigits 10 x.natAbs) := by
      rw [hd]
      unfold pickSign
      split <;> simp_all
    simp only [hs, hparse]
    have c1 : ¬ (x.natAbs ≥ 9223372036854775808) := by omega
    simp [c1]
    have := abs_of_nonneg (show 0 ≤ x by omega)
    omega

/-! ## Loading a store into the environment -/

theorem lookup_filter_fresh (store : EnvMap) (keys : List String) (key : String)
    (h : keys.contains key = false) :
    (store.filter (fun kv => !keys.contains kv.1)).lookup key = store.lookup key := by
  induction store with
  | nil => rfl
  | cons kv rest ih =>
    obtain ⟨k, v⟩ := kv
    by_cases hk : key = k
    · subst hk
      rw [List.filter_cons]
      simp only [h, Bool.not_false, if_true, List.lookup, beq_self_eq_true]
    · have hbeq : (key == k) = false := by simpa using hk
      rw [List.filter_cons]
      cases hc : keys.contains k
      · simp only [Bool.not_false, if_true, List.lookup, hbeq, ih]
      · simp only [Bool.not_true, Bool.false_eq_true, if_false, List.lookup, hbeq, ih]

theorem lookup_none_contains (env : Environ) (key : String) (h : env.lookup key = none) :
    (env.map Prod.fst).contains key = false := by
  induction env with
  | nil => rfl
  | cons kv rest ih =>
    obtain ⟨k, v⟩ := kv
    by_cases hk : key = k
    · subst hk
      simp [List.lookup] at h
    · have hbeq : (key == k) = false := by simpa using hk
      simp only [List.lookup, hbeq] at h
      have := ih h
      simp only [List.map_cons, List.contains_cons, hbeq, this, Bool.or_self]

theorem lookup_append_none (env rest : Environ) (key : String) (h : env.lookup key = none) :
    (env ++ rest).lookup key = rest.lookup key := by
  induction env with
  | nil => rfl
  | cons kv tail ih =>
    obtain ⟨k, v⟩ := kv
    by_cases hk : key = k
    · subst hk
      simp [List.lookup] at h
    · have hbeq : (key == k) = false := by simpa using hk
      simp only [List.lookup, hbeq] at h
      simp only [List.cons_append, List.lookup, hbeq]
      exact ih h

/-- After a load, a variable the environment did not have has the value the store
holds for it. -/
theorem Getenv_Load (codec : Dotenv) (fs : FileSystem) (env env2 : Environ) (name content : String)
    (store : EnvMap) (hfile : fs.read name = .ok content)
    (hparse : codec.Unmarshal content = .ok store)
    (hload : codec.Load fs env name = .ok env2) (key : String)
    (hkey : env.lookup key = none) :
    Getenv env2 key = storeValue store key := by
  unfold Dotenv.Load at hload
  simp only [hfile, hparse] at hload
  cases hload
  unfold Getenv storeValue
  rw [lookup_append_none _ _ _ hkey, lookup_filter_fresh _ _ _ (lookup_none_contains _ _ hkey)]

theorem Load_ok (codec : Dotenv) (fs : FileSystem) (env : Environ) (name content : String)
    (store : EnvMap) (hfile : fs.read name = .ok content)
    (hparse : codec.Unmarshal content = .ok store) :
    ∃ env2, codec.Load fs env name = .ok env2 := by
  unfold Dotenv.Load
  simp only [hfile, hparse]
  exact ⟨_, rfl⟩

/-! ## Restore -/

/-- What `restoreTokenSource` returns, in terms of the store it loads, when the
process environment does not define the four keys itself. -/
theorem restoreTokenSource_eq (codec : Dotenv) (fs : FileSystem) (env : Environ)
    (config : Config) (content : String) (store : EnvMap)
    (hfile : fs.read CacheFileName = .ok content)
    (hparse : codec.Unmarshal content = .ok store)
    (henv : ∀ key ∈ credentialKeys, env.lookup key = none) :
    (restoreTokenSource codec fs env config).1 =
      match ParseInt (storeValue store KeyExpiry) with
      | .error err => .error err
      | .ok expiryAsUnix =>
        if storeValue store KeyAccessToken = "" ∨ storeValue store KeyRefreshToken = ""
            ∨ storeValue store KeyTokenType = "" ∨ expiryAsUnix = 0 then
          .error (.errorsNew (restoreFailedMessage (storeValue store KeyAccessToken)
            (storeValue store KeyRefreshToken) (storeValue store KeyTokenType) expiryAsUnix))
        else
          .ok (config.TokenSource (some
            { AccessToken := storeValue store KeyAccessToken
              RefreshToken := storeValue store KeyRefreshToken
              TokenType := storeValue store KeyTokenType
              Expiry := timeUnix expiryAsUnix 0 })) := by
  obtain ⟨env2, hload⟩ := Load_ok codec fs env CacheFileName content store hfile hparse
  have hget : ∀ key ∈ credentialKeys, Getenv env2 key = storeValue store key :=
    fun key hk => Getenv_Load codec fs env env2 CacheFileName content store hfile hparse hload
      key (henv key hk)
  have ha := hget KeyAccessToken (by simp [credentialKeys])
  have hr := hget KeyRefreshToken (by simp [credentialKeys])
  have ht := hget KeyTokenType (by simp [credentialKeys])
  have hx := hget KeyExpiry (by simp [credentialKeys])
  unfold restoreTokenSource
  simp only [hload, ha, hr, ht, hx]
  cases ParseInt (storeValue store KeyExpiry) with
  | error err => rfl
  | ok x =>
    simp only []
    split <;> rfl

/-- C1 (amended): for a store that loads, read into a process environment that holds
none of the four keys, `restoreTokenSource` returns no token source and
(a) when the value of KEY_EXPIRY parses as a decimal `int64` and the value of
KEY_ACCESS_TOKEN, KEY_REFRESH_TOKEN or KEY_TOKEN_TYPE is missing or empty, or the expiry
is 0, the error is the one with the message "Failed to restore TokenSource...";
(b) when the value of KEY_EXPIRY does not parse, the error is the one of
`strconv.ParseInt`; so it is (c) when KEY_EXPIRY is missing or empty. -/
theorem restoreTokenSource_incomplete (codec : Dotenv) (fs : FileSystem) (env : Environ)
    (config : Config) (content : String) (store : EnvMap)
    (hfile : fs.read CacheFileName = .ok content)
    (hparse : codec.Unmarshal content = .ok store)
    (henv : ∀ key ∈ credentialKeys, env.lookup key = none) :
    (∀ expiryAsUnix, ParseInt (storeValue store KeyExpiry) = .ok expiryAsUnix →
      (storeValue store KeyAccessToken = "" ∨ storeValue store KeyRefreshToken = ""
        ∨ storeValue store KeyTokenType = "" ∨ expiryAsUnix = 0) →
      (restoreTokenSource codec fs env config).1 =
        .error (.errorsNew (restoreFailedMessage (storeValue store KeyAccessToken)
          (storeValue store KeyRefreshToken) (storeValue store KeyTokenType) expiryAsUnix)))
    ∧ (∀ err, ParseInt (storeValue store KeyExpiry) = .error err →
      (restoreTokenSource codec fs env config).1 = .error err)
    ∧ (storeValue store KeyExpiry = "" →
      (restoreTokenSource codec fs env config).1 = .error (.numError "ParseInt" "" .invalid)) := by
  have h := restoreTokenSource_eq codec fs env config content store hfile hparse henv
  refine ⟨?_, ?_, ?_⟩
  · intro x hx hinc
    rw [h, hx]
    simp only []
    rw [if_pos hinc]
  · intro err herr
    rw [h, herr]
  · intro hempty
    rw [h, hempty]
    rfl

/-- C1, an instance: a store without KEY_REFRESH_TOKEN. -/
theorem restoreTokenSource_incomplete_witness :
    (restoreTokenSource plainDotenv
      ⟨[(CacheFileName, "KEY_ACCESS_TOKEN=a\nKEY_TOKEN_TYPE=Bearer\nKEY_EXPIRY=1646492400\n")],
        false⟩ [("HOME", "/root")] exampleConfig).1
      = .error (.errorsNew ("Failed to restore TokenSource.\naccessToken: a\nrefreshToken: "
          ++ "\n, tokenType: Bearer, expiryAsUnix: 1646492400\n")) :=
  (restoreTokenSource_incomplete plainDotenv
    ⟨[(CacheFileName, "KEY_ACCESS_TOKEN=a\nKEY_TOKEN_TYPE=Bearer\nKEY_EXPIRY=1646492400\n")],
      false⟩ [("HOME", "/root")] exampleConfig _ _ rfl rfl (by decide)).1
    1646492400 rfl (by decide)

/-- C1 as stated fails: a store without KEY_EXPIRY is refused with the error of
`strconv.ParseInt`, not with "Failed to restore TokenSource"; and a store without
KEY_ACCESS_TOKEN is restored when the process environment has that variable. -/
theorem restoreTokenSource_counterexample :
    (restoreTokenSource plainDotenv
      ⟨[(CacheFileName, "KEY_ACCESS_TOKEN=a\nKEY_REFRESH_TOKEN=r\nKEY_TOKEN_TYPE=Bearer\n")],
        false⟩ [] exampleConfig).1
      = .error (.numError "ParseInt" "" .invalid)
    ∧ (restoreTokenSource plainDotenv
      ⟨[(CacheFileName, "KEY_REFRESH_TOKEN=r\nKEY_TOKEN_TYPE=Bearer\nKEY_EXPIRY=1646492400\n")],
        false⟩ [("KEY_ACCESS_TOKEN", "a")] exampleConfig).1
      = .ok (exampleConfig.TokenSource (some
          { AccessToken := "a", RefreshToken := "r", TokenType := "Bearer"
            Expiry := timeUnix 1646492400 0 })) := by
  constructor <;> rfl

/-! ## Persist, then restore -/

theorem Unix_int64 (t : Time) :
    -9223372036854775808 ≤ t.Unix ∧ t.Unix ≤ 9223372036854775807 := by
  unfold Time.Unix Time.unixSec wrapInt64
  omega

theorem timeUnix_zero_nsec (x : Int) (h1 : -9223372036854775808 ≤ x)
    (h2 : x ≤ 9223372036854775807) :
    (timeUnix x 0).Unix = x ∧ (timeUnix x 0).nsec = 0 := by
  unfold timeUnix Time.Unix Time.unixSec unixTime
  have c : ¬ ((0 : Int) < 0 ∨ (0 : Int) ≥ 1000000000) := by omega
  simp only [c, if_false]
  unfold wrapInt64 unixToInternal
  constructor
  · omega
  · rfl

theorem read_write (fs fs2 : FileSystem) (name content : String)
    (h : fs.write name content = .ok fs2) : fs2.read name = .ok content := by
  unfold FileSystem.write at h
  split at h
  · cases h
  · cases h
    simp [FileSystem.read, List.lookup]

/-- What `saveTokenSource` does when the token source returns a token, the text
made of it parses, and the file can be written. -/
theorem saveTokenSource_ok (codec : Dotenv) (lib : OAuth2) (now : Time) (fs : FileSystem)
    (ts ts2 : TokenSource) (C : Token) (sent : List Event) (m : EnvMap)
    (htoken : ts.Token lib now = (.ok C, ts2, sent))
    (hwrite : fs.readOnly = false)
    (hm : codec.Unmarshal (tokenText C) = .ok m) :
    (saveTokenSource codec lib now fs ts).1 = none
    ∧ (saveTokenSource codec lib now fs ts).2.1.read CacheFileName
        = .ok (codec.Marshal m ++ "\n") := by
  have hw : ∃ fs2, codec.Write fs m CacheFileName = .ok fs2 := by
    unfold Dotenv.Write FileSystem.write
    simp [hwrite]
  obtain ⟨fs2, hfs2⟩ := hw
  have hread : fs2.read CacheFileName = .ok (codec.Marshal m ++ "\n") :=
    read_write fs fs2 _ _ (by unfold Dotenv.Write at hfs2; exact hfs2)
  unfold saveTokenSource refreshTokenSourceIfNeeded
  simp only [htoken, hm, hfs2]
  exact ⟨trivial, hread⟩

/-- C2 (amended): let the token source return the credential `C`, with access token,
refresh token and token type not empty and an expiry whose Unix seconds are not 0.
If the cache file can be written, the dotenv codec reads the four values back as
`saveTokenSource` formats them, and the process environment of the restoring run holds
none of the four keys, then `saveTokenSource` returns no error and `restoreTokenSource`
on the files it leaves returns a token source holding `C` with the same access token,
refresh token and token type and the expiry `time.Unix(C.Expiry.Unix(), 0)`: the
same second, no nanoseconds. -/
theorem save_restore_roundtrip (codec : Dotenv) (lib : OAuth2) (now : Time) (fs : FileSystem)
    (ts ts2 : TokenSource) (C : Token) (sent : List Event) (m m2 : EnvMap)
    (env : Environ) (config : Config)
    (htoken : ts.Token lib now = (.ok C, ts2, sent))
    (hwrite : fs.readOnly = false)
    (hm : codec.Unmarshal (tokenText C) = .ok m)
    (hm2 : codec.Unmarshal (codec.Marshal m ++ "\n") = .ok m2)
    (hkeep : storeValue m2 KeyAccessToken = C.AccessToken
      ∧ storeValue m2 KeyRefreshToken = C.RefreshToken
      ∧ storeValue m2 KeyTokenType = C.TokenType
      ∧ storeValue m2 KeyExpiry = FormatInt C.Expiry.Unix)
    (henv : ∀ key ∈ credentialKeys, env.lookup key = none)
    (ha : C.AccessToken ≠ "") (hr : C.RefreshToken ≠ "") (ht : C.TokenType ≠ "")
    (hx : C.Expiry.Unix ≠ 0) :
    (saveTokenSource codec lib now fs ts).1 = none
    ∧ (restoreTokenSource codec (saveTokenSource codec lib now fs ts).2.1 env config).1
        = .ok (config.TokenSource (some
            { AccessToken := C.AccessToken
              RefreshToken := C.RefreshToken
              TokenType := C.TokenType
              Expiry := timeUnix C.Expiry.Unix 0 }))
    ∧ (timeUnix C.Expiry.Unix 0).Unix = C.Expiry.Unix
    ∧ (timeUnix C.Expiry.Unix 0).nsec = 0 := by
  obtain ⟨hsave, hread⟩ := saveTokenSource_ok codec lib now fs ts ts2 C sent m htoken hwrite hm
  obtain ⟨hu1, hu2⟩ := Unix_int64 C.Expiry
  obtain ⟨ka, kr, kt, kx⟩ := hkeep
  refine ⟨hsave, ?_, timeUnix_zero_nsec _ hu1 hu2⟩
  rw [restoreTokenSource_eq codec _ env config _ m2 hread hm2 henv, kx,
    ParseInt_FormatInt _ hu1 hu2]
  simp only [ka, kr, kt]
  rw [if_neg (by simp [ha, hr, ht, hx])]

/-- C2, an instance: the example credential, with a quarter of a second in its expiry. -/
theorem save_restore_roundtrip_witness :
    (saveTokenSource plainDotenv (plainOAuth (.ok exampleToken))
        ⟨1646400000, 0, Location.Local⟩ ⟨[], false⟩
        (exampleConfig.TokenSource (some exampleToken))).1 = none
    ∧ (restoreTokenSource plainDotenv
        (saveTokenSource plainDotenv (plainOAuth (.ok exampleToken))
          ⟨1646400000, 0, Location.Local⟩ ⟨[], false⟩
          (exampleConfig.TokenSource (some exampleToken))).2.1
        [("HOME", "/root")] exampleConfig).1
      = .ok (exampleConfig.TokenSource (some
          { AccessToken := "ya29.a0", RefreshToken := "1//0e", TokenType := "Bearer"
            Expiry := timeUnix 1646492400 0 }))
    ∧ (timeUnix 1646492400 0).Unix = 1646492400
    ∧ (timeUnix 1646492400 0).nsec = 0 :=
  save_restore_roundtrip plainDotenv (plainOAuth (.ok exampleToken))
    ⟨1646400000, 0, Location.Local⟩ ⟨[], false⟩ (exampleConfig.TokenSource (some exampleToken))
    (exampleConfig.TokenSource (some exampleToken)) exampleToken [] exampleStore exampleCacheStore
    [("HOME", "/root")] exampleConfig rfl rfl rfl rfl
    ⟨rfl, rfl, rfl, rfl⟩ (by decide) (by decide) (by decide) (by decide) (by decide)

/-- C2 as stated fails: a credential without refresh token, returned by the token
source and persisted without error, is refused by `restoreTokenSource`; an access
token that reads as a whole number comes back rewritten; and a key that the process
environment already holds is not taken from the store. -/
theorem save_restore_counterexample :
    ((exampleConfig.TokenSource (some tokenWithoutRefresh)).Token
        (plainOAuth (.ok exampleToken)) exampleNow).1 = .ok tokenWithoutRefresh
    ∧ (saveTokenSource plainDotenv (plainOAuth (.ok exampleToken)) exampleNow ⟨[], false⟩
        (exampleConfig.TokenSource (some tokenWithoutRefresh))).1 = none
    ∧ (restoreTokenSource plainDotenv
        (saveTokenSource plainDotenv (plainOAuth (.ok exampleToken)) exampleNow ⟨[], false⟩
          (exampleConfig.TokenSource (some tokenWithoutRefresh))).2.1 [] exampleConfig).1
      = .error (.errorsNew ("Failed to restore TokenSource.\naccessToken: ya29.a0"
          ++ "\nrefreshToken: \n, tokenType: Bearer, expiryAsUnix: 1646492400\n"))
    ∧ (restoreTokenSource plainDotenv
        (saveTokenSource plainDotenv (plainOAuth (.ok exampleToken)) exampleNow ⟨[], false⟩
          (exampleConfig.TokenSource (some tokenOfDigits))).2.1 [] exampleConfig).1
      = .ok (exampleConfig.TokenSource (some
          { AccessToken := "7", RefreshToken := "1//0e", TokenType := "Bearer"
            Expiry := timeUnix 1646492400 0 }))
    ∧ (restoreTokenSource plainDotenv
        (saveTokenSource plainDotenv (plainOAuth (.ok exampleToken)) exampleNow ⟨[], false⟩
          (exampleConfig.TokenSource (some exampleToken))).2.1
        [("KEY_ACCESS_TOKEN", "stale")] exampleConfig).1
      = .ok (exampleConfig.TokenSource (some
          { AccessToken := "stale", RefreshToken := "1//0e", TokenType := "Bearer"
            Expiry := timeUnix 1646492400 0 })) := by
  refine ⟨?_, ?_, ?_, ?_, ?_⟩ <;> rfl

/-! ## Restore, then refresh if needed -/

theorem ParseInt_range (s : String) (x : Int) (h : ParseInt s = .ok x) :
    -9223372036854775808 ≤ x ∧ x ≤ 9223372036854775807 := by
  unfold ParseInt at h
  split at h
  · cases h
  · simp only [] at h
    split at h
    · cases h
    · next un hun =>
      split at h
      · cases h
      · next c1 =>
        split at h
        · cases h
        · next c2 =>
          cases h
          cases hneg : (pickSign s.data).1
          · simp [hneg] at c1 ⊢
            omega
          · simp [hneg] at c2 ⊢
            omega

/-- A time that lies `delta` before a deadline, or earlier, is not after the
deadline less `delta`. -/
theorem Add_neg_not_Before (e : Time) (delta : Int) (now : Time) (he : e.nsec < 1000000000)
    (hnow : now.nsec < 1000000000)
    (hfresh : now.sec * 1000000000 + now.nsec + delta ≤ e.sec * 1000000000 + e.nsec) :
    (e.Add (-delta)).Before now = false := by
  have hdm := Int.tdiv_add_tmod (-delta) 1000000000
  have hb := tmod_bounds (-delta) 1000000000 (by decide)
  unfold Time.Add Time.Before
  generalize Int.tdiv (-delta) 1000000000 = q at *
  generalize Int.tmod (-delta) 1000000000 = r at *
  by_cases c1 : (e.nsec : Int) + r ≥ 1000000000
  · simp only [c1, if_true]
    simp only [Bool.or_eq_false_iff, Bool.and_eq_false_iff, decide_eq_false_iff_not,
      beq_eq_false_iff_ne, ne_eq]
    constructor
    · omega
    · by_cases hs : e.sec + (q + 1) = now.sec
      · right; omega
      · left; exact hs
  · simp only [c1, if_false]
    by_cases hr : (e.nsec : Int) + r < 0
    · simp only [hr, if_true]
      simp only [Bool.or_eq_false_iff, Bool.and_eq_false_iff, decide_eq_false_iff_not,
        beq_eq_false_iff_ne, ne_eq]
      constructor
      · omega
      · by_cases hs : e.sec + (q - 1) = now.sec
        · right; omega
        · left; exact hs
    · simp only [hr, if_false]
      simp only [Bool.or_eq_false_iff, Bool.and_eq_false_iff, decide_eq_false_iff_not,
        beq_eq_false_iff_ne, ne_eq]
      constructor
      · omega
      · by_cases hs : e.sec + q = now.sec
        · right; omega
        · left; exact hs

/-- C9 (amended): for a store that loads with all four values, none empty and the
expiry not 0, read into a process environment that holds none of the four keys: when
the current time is at least the margin `expiryDelta` of package `oauth2` before the
expiry `time.Unix(expiryAsUnix, 0)` of the restored token, `restoreTokenSource`
followed by `refreshTokenSourceIfNeeded` sends no request and returns the token with
the access token, refresh token, token type and expiry of the store, leaving the
token source as it was. -/
theorem restore_then_refresh (codec : Dotenv) (lib : OAuth2) (fs : FileSystem) (env : Environ)
    (config : Config) (content : String) (store : EnvMap) (now : Time) (expiryAsUnix : Int)
    (hfile : fs.read CacheFileName = .ok content)
    (hparse : codec.Unmarshal content = .ok store)
    (henv : ∀ key ∈ credentialKeys, env.lookup key = none)
    (hexpiry : ParseInt (storeValue store KeyExpiry) = .ok expiryAsUnix)
    (hcomplete : storeValue store KeyAccessToken ≠ "" ∧ storeValue store KeyRefreshToken ≠ ""
      ∧ storeValue store KeyTokenType ≠ "" ∧ expiryAsUnix ≠ 0)
    (hnow : now.nsec < 1000000000)
    (hfresh : now.sec * 1000000000 + now.nsec + lib.expiryDelta
      ≤ (timeUnix expiryAsUnix 0).sec * 1000000000) :
    (∃ tokenSource, (restoreTokenSource codec fs env config).1 = .ok tokenSource
      ∧ refreshTokenSourceIfNeeded lib now tokenSource
        = (.ok { AccessToken := storeValue store KeyAccessToken
                 RefreshToken := storeValue store KeyRefreshToken
                 TokenType := storeValue store KeyTokenType
                 Expiry := timeUnix expiryAsUnix 0 },
            tokenSource, []))
    ∧ (timeUnix expiryAsUnix 0).Unix = expiryAsUnix
    ∧ (timeUnix expiryAsUnix 0).nsec = 0 := by
  obtain ⟨ha, hr, ht, hx⟩ := hcomplete
  obtain ⟨hlo, hhi⟩ := ParseInt_range _ _ hexpiry
  obtain ⟨hunix, hns⟩ := timeUnix_zero_nsec expiryAsUnix hlo hhi
  have hrestore : (restoreTokenSource codec fs env config).1
      = .ok (config.TokenSource (some
          { AccessToken := storeValue store KeyAccessToken
            RefreshToken := storeValue store KeyRefreshToken
            TokenType := storeValue store KeyTokenType
            Expiry := timeUnix expiryAsUnix 0 })) := by
    rw [restoreTokenSource_eq codec fs env config content store hfile hparse henv, hexpiry]
    simp only []
    rw [if_neg (by simp [ha, hr, ht, hx])]
  refine ⟨⟨_, hrestore, ?_⟩, hunix, hns⟩
  have hvalid : Token.Valid lib now (some
      { AccessToken := storeValue store KeyAccessToken
        RefreshToken := storeValue store KeyRefreshToken
        TokenType := storeValue store KeyTokenType
        Expiry := timeUnix expiryAsUnix 0 }) = true := by
    unfold Token.Valid Token.expired
    simp only [Add_neg_not_Before (timeUnix expiryAsUnix 0) lib.expiryDelta now
      (by rw [hns]; decide) hnow (by rw [hns]; simpa using hfresh)]
    simp [ha]
  unfold refreshTokenSourceIfNeeded TokenSource.Token Config.TokenSource
  simp only [hvalid, if_true]

/-- C9, an instance: the example cache, one day before it expires. -/
theorem restore_then_refresh_witness :
    (∃ tokenSource,
      (restoreTokenSource plainDotenv ⟨[(CacheFileName, exampleCache)], false⟩ []
        exampleConfig).1 = .ok tokenSource
      ∧ refreshTokenSourceIfNeeded (plainOAuth (.ok refreshedToken)) exampleNow tokenSource
        = (.ok { AccessToken := "ya29.a0", RefreshToken := "1//0e", TokenType := "Bearer"
                 Expiry := timeUnix 1646492400 0 },
            tokenSource, []))
    ∧ (timeUnix 1646492400 0).Unix = 1646492400
    ∧ (timeUnix 1646492400 0).nsec = 0 :=
  restore_then_refresh plainDotenv (plainOAuth (.ok refreshedToken))
    ⟨[(CacheFileName, exampleCache)], false⟩ [] exampleConfig exampleCache exampleCacheStore
    exampleNow 1646492400 rfl rfl (by decide) rfl (by decide) (by decide) (by decide)

/-- C9 as stated fails: five seconds before the expiry, which is later than the
current time, the token counts as expired under the margin of ten seconds; a refresh
request is sent and the token returned is the new one.  And a day before the expiry,
the access token returned is that of the process environment when it has one. -/
theorem restore_then_refresh_counterexample :
    (restoreTokenSource plainDotenv ⟨[(CacheFileName, exampleCache)], false⟩ []
        exampleConfig).1
      = .ok (exampleConfig.TokenSource (some
          { exampleToken with Expiry := { sec := 1646492400, nsec := 0, loc := Location.Local } }))
    ∧ fiveSecondsBefore.Before { sec := 1646492400, nsec := 0, loc := Location.Local } = true
    ∧ refreshTokenSourceIfNeeded (plainOAuth (.ok refreshedToken)) fiveSecondsBefore
        (exampleConfig.TokenSource (some
          { exampleToken with Expiry := { sec := 1646492400, nsec := 0, loc := Location.Local } }))
      = (.ok refreshedToken,
          { t := some refreshedToken, conf := exampleConfig, refreshToken := "1//0e" },
          [.refresh "1//0e"])
    ∧ (restoreTokenSource plainDotenv ⟨[(CacheFileName, exampleCache)], false⟩
        [("KEY_ACCESS_TOKEN", "stale")] exampleConfig).1
      = .ok (exampleConfig.TokenSource (some
          { AccessToken := "stale", RefreshToken := "1//0e", TokenType := "Bearer"
            Expiry := { sec := 1646492400, nsec := 0, loc := Location.Local } }))
    ∧ (refreshTokenSourceIfNeeded (plainOAuth (.ok refreshedToken)) exampleNow
        (exampleConfig.TokenSource (some
          { AccessToken := "stale", RefreshToken := "1//0e", TokenType := "Bearer"
            Expiry := { sec := 1646492400, nsec := 0, loc := Location.Local } }))).1
      = .ok { AccessToken := "stale", RefreshToken := "1//0e", TokenType := "Bearer"
              Expiry := { sec := 1646492400, nsec := 0, loc := Location.Local } } := by
  refine ⟨?_, ?_, ?_, ?_, ?_⟩ <;> rfl

/-! ## The query of the redirect URL -/

theorem cut_cons (sep c : Char) (rest : List Char) :
    cut sep (c :: rest) =
      if c = sep then ([], rest, true)
      else (c :: (cut sep rest).1, (cut sep rest).2.1, (cut sep rest).2.2) := by
  rcases h : cut sep rest with ⟨b, a, f⟩
  simp only [cut, h]

theorem splitOn_cons (sep c : Char) (rest : List Char) (b : List Char) (bs : List (List Char))
    (h : splitOn sep rest = b :: bs) (hc : c ≠ sep) :
    splitOn sep (c :: rest) = (c :: b) :: bs := by
  simp only [splitOn, hc, if_false, h]

theorem cut_spec (sep : Char) (q : List Char) :
    ((cut sep q).2.2 = true →
      splitOn sep q = (cut sep q).1 :: splitOn sep (cut sep q).2.1
        ∧ (cut sep q).2.1.length < q.length)
    ∧ ((cut sep q).2.2 = false → splitOn sep q = [(cut sep q).1] ∧ (cut sep q).2.1 = []) := by
  induction q with
  | nil => simp [cut, splitOn]
  | cons c rest ih =>
    rw [cut_cons]
    by_cases hc : c = sep
    · simp [splitOn, hc]
    · obtain ⟨ih1, ih2⟩ := ih
      simp only [hc, if_false]
      constructor
      · intro hf
        obtain ⟨h1, h2⟩ := ih1 hf
        refine ⟨splitOn_cons sep c rest _ _ h1 hc, ?_⟩
        simp only [List.length_cons]
        omega
      · intro hf
        obtain ⟨h1, h2⟩ := ih2 hf
        exact ⟨splitOn_cons sep c rest _ _ h1 hc, h2⟩

theorem parseQueryLoop_succ (unescape : String → Except GoError String) (fuel : Nat)
    (m : Values) (q : List Char) :
    parseQueryLoop unescape (fuel + 1) m q =
      if q = [] then m
      else parseQueryLoop unescape fuel (queryStep unescape m (cut '&' q).1) (cut '&' q).2.1 := by
  rcases h : cut '&' q with ⟨b, a, f⟩
  simp only [parseQueryLoop, h]

theorem queryStep_nil (unescape : String → Except GoError String) (m : Values) :
    queryStep unescape m [] = m := by
  simp [queryStep]

/-- The loop of `parseQuery` takes the parts between `&` one by one; with fuel
above the length of the query it reaches the end of it. -/
theorem parseQueryLoop_eq (unescape : String → Except GoError String) (fuel : Nat)
    (m : Values) (q : List Char) (h : q.length < fuel) :
    parseQueryLoop unescape fuel m q = (splitOn '&' q).foldl (queryStep unescape) m := by
  induction fuel generalizing m q with
  | zero => omega
  | succ fuel ih =>
    rw [parseQueryLoop_succ]
    by_cases hq : q = []
    · subst hq
      simp [splitOn, queryStep_nil]
    · rw [if_neg hq]
      obtain ⟨h1, h2⟩ := cut_spec '&' q
      cases hf : (cut '&' q).2.2
      · obtain ⟨hs, hr⟩ := h2 hf
        rw [hs, hr]
        cases fuel with
        | zero => simp [parseQueryLoop]
        | succ f => simp [parseQueryLoop]
      · obtain ⟨hs, hl⟩ := h1 hf
        rw [hs, ih _ _ (by omega)]
        rfl

theorem lookup_add (m : Values) (k v k2 : String) :
    (m.add k v).lookup k2 =
      if k2 = k then some ((m.lookup k).getD [] ++ [v]) else m.lookup k2 := by
  induction m with
  | nil =>
    by_cases h : k2 = k
    · simp [Values.add, List.lookup, h]
    · have hb : (k2 == k) = false := by simpa using h
      simp [Values.add, List.lookup, h, hb]
  | cons kv rest ih =>
    obtain ⟨k0, vs⟩ := kv
    by_cases h0 : k0 = k
    · subst h0
      by_cases h : k2 = k0
      · simp [Values.add, List.lookup, h]
      · have hb : (k2 == k0) = false := by simpa using h
        simp [Values.add, List.lookup, h, hb]
    · have hb0 : (k == k0) = false := by simpa using (Ne.symm h0)
      by_cases h : k2 = k0
      · subst h
        have hne : ¬ k2 = k := h0
        simp [Values.add, List.lookup, h0, hne]
      · have hb : (k2 == k0) = false := by simpa using h
        simp only [Values.add, h0, if_false, List.lookup, hb, hb0, ih]

theorem queryStep_eq (unescape : String → Except GoError String) (m : Values)
    (part : List Char) :
    queryStep unescape m part =
      match queryPair unescape part with
      | some kv => m.add kv.1 kv.2
      | none => m := by
  rcases hcut : cut '=' part with ⟨key, value, found⟩
  unfold queryStep queryPair
  by_cases h1 : ';' ∈ part
  · simp [h1]
  · by_cases h2 : part = []
    · simp [h2]
    · simp only [h1, h2, if_false, or_self, hcut]
      cases unescape (String.mk key) with
      | error e => rfl
      | ok k =>
        cases unescape (String.mk value) with
        | error e => rfl
        | ok v => rfl

theorem foldl_queryStep (unescape : String → Except GoError String) (parts : List (List Char))
    (m : Values) :
    parts.foldl (queryStep unescape) m
      = (parts.filterMap (queryPair unescape)).foldl (fun m kv => m.add kv.1 kv.2) m := by
  induction parts generalizing m with
  | nil => rfl
  | cons part rest ih =>
    rw [List.foldl_cons, ih, queryStep_eq, List.filterMap_cons]
    cases queryPair unescape part with
    | none => rfl
    | some kv => rfl

theorem lookup_foldl_add (pairs : List (String × String)) (m : Values) (key : String) :
    (pairs.foldl (fun m kv => m.add kv.1 kv.2) m).lookup key =
      if ((pairs.filter (fun kv => kv.1 = key)).map Prod.snd) = [] then m.lookup key
      else some ((m.lookup key).getD []
        ++ (pairs.filter (fun kv => kv.1 = key)).map Prod.snd) := by
  induction pairs generalizing m with
  | nil => simp
  | cons kv rest ih =>
    obtain ⟨k, v⟩ := kv
    rw [List.foldl_cons, ih, lookup_add]
    by_cases hk : k = key
    · subst hk
      simp only [if_true, List.filter_cons, decide_True, List.map_cons, Option.getD_some]
      by_cases hr : (List.map Prod.snd (List.filter (fun kv => decide (kv.1 = k)) rest)) = []
      · simp [hr]
      · simp [hr]
    · have hk2 : ¬ key = k := fun h => hk h.symm
      simp only [hk2, if_false, List.filter_cons, hk, decide_False, Bool.false_eq_true]

/-- The values `u.Query()` holds for a key are those the query string gives for it;
a key without value is not in the map. -/
theorem Query_lookup (net : NetURL) (u : URL) (key : String) :
    (u.Query net).lookup key =
      if queryValues net key u.RawQuery = [] then none
      else some (queryValues net key u.RawQuery) := by
  unfold URL.Query queryValues
  rw [parseQueryLoop_eq _ _ _ _ (Nat.lt_succ_self _), foldl_queryStep, lookup_foldl_add]
  simp

theorem AuthCodeURL_in_message (pre url : String) : url.data <:+: (pre ++ url).data :=
  ⟨pre.data, [], by simp [String.data_append]⟩

/-- C3: when the redirect URL parses and its query has no `code`, or the first value
of `code` is empty, `getTokenSourceFromRedirectUrl` returns an error and no token
source, sends no exchange request (it emits nothing), and the message of the error
contains `config.AuthCodeURL("state", oauth2.AccessTypeOffline)`. -/
theorem getTokenSourceFromRedirectUrl_missing_code (net : NetURL) (lib : OAuth2)
    (config : Config) (authUrl : String) (parsed : URL)
    (hparse : net.Parse authUrl = .ok parsed)
    (hcode : (parsed.Query net).lookup "code" = none
      ∨ ∃ rest, (parsed.Query net).lookup "code" = some ("" :: rest)) :
    ∃ msg, getTokenSourceFromRedirectUrl net lib config authUrl = (.err (.errorsNew msg), [])
      ∧ (lib.AuthCodeURL config "state" [.AccessTypeOffline]).data <:+: msg.data := by
  unfold getTokenSourceFromRedirectUrl
  rcases hcode with h | ⟨rest, h⟩
  · simp only [hparse, h]
    exact ⟨_, rfl, AuthCodeURL_in_message _ _⟩
  · simp only [hparse, h, index_zero_cons, if_true]
    exact ⟨_, rfl, AuthCodeURL_in_message _ _⟩

/-- C3, an instance: a redirect URL with `state` and `scope` but no `code`. -/
theorem getTokenSourceFromRedirectUrl_missing_code_witness :
    ∃ msg, getTokenSourceFromRedirectUrl plainURL (plainOAuth (.ok exampleToken)) exampleConfig
        "http://localhost/?state=state&scope=fitness" = (.err (.errorsNew msg), [])
      ∧ ((plainOAuth (.ok exampleToken)).AuthCodeURL exampleConfig "state"
          [.AccessTypeOffline]).data <:+: msg.data :=
  getTokenSourceFromRedirectUrl_missing_code plainURL (plainOAuth (.ok exampleToken))
    exampleConfig "http://localhost/?state=state&scope=fitness" _ rfl (Or.inl rfl)

/-- C10: `getTokenSourceFromRedirectUrl` never panics; every key of the parsed query
has a list of values that is not empty and holds the values the query string gives
for the key, in their order; and the code sent in an exchange request is the first
value the query string gives for `code`. -/
theorem code_index_in_bounds (net : NetURL) (lib : OAuth2) (config : Config)
    (authUrl : String) :
    (∀ p, (getTokenSourceFromRedirectUrl net lib config authUrl).1 ≠ .panic p)
    ∧ (∀ parsed key values, net.Parse authUrl = .ok parsed →
        (parsed.Query net).lookup key = some values →
        values ≠ [] ∧ values = queryValues net key parsed.RawQuery)
    ∧ (∀ code, Event.exchange code ∈ (getTokenSourceFromRedirectUrl net lib config authUrl).2 →
        ∃ parsed, net.Parse authUrl = .ok parsed
          ∧ (queryValues net "code" parsed.RawQuery).head? = some code) := by
  have hq : ∀ parsed key values, (URL.Query net parsed).lookup key = some values →
      values ≠ [] ∧ values = queryValues net key parsed.RawQuery := by
    intro parsed key values h
    rw [Query_lookup] at h
    split at h
    · cases h
    · next hne =>
      cases h
      exact ⟨hne, rfl⟩
  refine ⟨?_, fun parsed key values _ h => hq parsed key values h, ?_⟩
  · intro p
    unfold getTokenSourceFromRedirectUrl
    cases hp : net.Parse authUrl with
    | error e => simp
    | ok parsed =>
      simp only []
      cases hl : (parsed.Query net).lookup "code" with
      | none => simp
      | some result =>
        obtain ⟨hne, _⟩ := hq parsed "code" result hl
        obtain ⟨c, cs, hcs⟩ := List.exists_cons_of_ne_nil hne
        simp only [hcs, index_zero_cons]
        split
        · simp
        · split <;> simp
  · intro code
    unfold getTokenSourceFromRedirectUrl
    cases hp : net.Parse authUrl with
    | error e => simp
    | ok parsed =>
      simp only []
      cases hl : (parsed.Query net).lookup "code" with
      | none => simp
      | some result =>
        obtain ⟨hne, hv⟩ := hq parsed "code" result hl
        obtain ⟨c, cs, hcs⟩ := List.exists_cons_of_ne_nil hne
        simp only [hcs, index_zero_cons]
        intro hmem
        refine ⟨parsed, rfl, ?_⟩
        rw [← hv, hcs]
        split at hmem
        · simp at hmem
        · split at hmem
          · simp at hmem
            rw [hmem]; rfl
          · simp at hmem
            rw [hmem]; rfl

/-- C8, an instance: a run where everything succeeds gets as far as the fetches, all
six calls happen in the fixed order, and the five fetches returned a value. -/
theorem main_order_witness :
    reachesFetches exampleWorld (Location.named "Asia/Tokyo") healthyService
    ∧ calls (main exampleWorld).1 = [Op.fetchSteps, Op.fetchSleep, Op.fetchWeight,
        Op.fetchHeartRate, Op.fetchTemperature, Op.persist]
    ∧ ∃ location svc, exampleWorld.LoadLocation "Asia/Tokyo" = .ok location
      ∧ exampleWorld.NewService = .ok svc
      ∧ (getStepCountByDate exampleWorld.db svc
          (Date exampleWorld.db 2022 3 6 0 0 0 0 location)).isOk = true
      ∧ (getSleepByDate exampleWorld.db exampleWorld.format svc
          (Date exampleWorld.db 2022 3 6 0 0 0 0 location)).isOk = true
      ∧ (getWeightByDate exampleWorld.db svc
          (Date exampleWorld.db 2022 3 6 0 0 0 0 location)).isOk = true
      ∧ (getHeartRateByDate exampleWorld.db svc
          (Date exampleWorld.db 2022 3 6 0 0 0 0 location)).isOk = true
      ∧ (getBodyTemperatureByDate exampleWorld.db svc
          (Date exampleWorld.db 2022 3 6 0 0 0 0 location)).isOk = true :=
  have hreach : reachesFetches exampleWorld (Location.named "Asia/Tokyo") healthyService :=
    ⟨rfl, ⟨_, _, rfl, Or.inl ⟨_, rfl⟩⟩, rfl⟩
  have h := (main_order exampleWorld).2.1 _ _ hreach rfl rfl rfl rfl rfl
  ⟨hreach, h, (main_order exampleWorld).2.2.2.2.2.1 (by rw [h]; decide)⟩

/-- C10, an instance: of two values of `code`, the first is the one exchanged. -/
theorem code_index_in_bounds_witness :
    ∃ parsed, plainURL.Parse "http://localhost/?state=state&code=4/first&code=4/second"
        = .ok parsed
      ∧ (queryValues plainURL "code" parsed.RawQuery).head? = some "4/first" :=
  (code_index_in_bounds plainURL (plainOAuth (.ok exampleToken)) exampleConfig
    "http://localhost/?state=state&code=4/first&code=4/second").2.2 "4/first"
    (by decide)

end GoogleFit
